import Mathlib

/-!
# Telemetry data contracts (`appinsights/datacontracts.go`)

A shallow embedding of the four telemetry constructors of the package and of
the duration encoding of `NewRequestTelemetry`, followed by the properties
proved about them.

Conventions of the embedding

* The Go types `int` and `time.Duration` are 64-bit two's complement integers: they are
  integers here, and every `int` operation of the source is followed by
  `wrapInt`.
* `duration.Hours()`, `duration.Minutes()` and `duration.Seconds()` return a
  `float64`: the sum `float64(d / unit) + float64(d % unit) / float64(unit)` is
  computed with the binary64 operations, each rounded to nearest, ties to even,
  and `int(...)` truncates the result toward zero. A binary64 value is held as
  an integer numerator over a power of two; the exponent range is not bounded,
  as the magnitudes of the file stay between 2^-42 and 2^63.
* The clock, the identifier generator and the context factory are read from an
  explicit `World` that each constructor threads through.
-/

namespace appinsights

/-! ## Machine integers and the standard library -/

/-- Wrap-around of a 64-bit signed integer in complement representation (Go `int`,
`int64`). -/
def wrapInt (x : Int) : Int :=
  (x + 9223372036854775808) % 18446744073709551616 - 9223372036854775808

/-- A value that a 64-bit signed integer can hold. -/
def isInt64 (x : Int) : Prop :=
  -9223372036854775808 ≤ x ∧ x ≤ 9223372036854775807

instance (x : Int) : Decidable (isInt64 x) := by
  unfold isInt64
  exact inferInstance

/-- Type `time.Duration`: a count of nanoseconds held in an `int64`. -/
abbrev Duration := Int

/-! ### Binary64 arithmetic -/

/-- Rounding half to even of the quotient `a / b` of two naturals, `b` positive. -/
def roundHalfEven (a b : Nat) : Nat :=
  if 2 * (a % b) < b then a / b
  else if b < 2 * (a % b) then a / b + 1
  else if a / b % 2 = 0 then a / b else a / b + 1

/-- The least `k` from the given one on with `2^52 <= (a / b) * 2^k`: the scale
that brings a positive rational below `2^53` to 53 significant bits. The first
argument bounds the number of steps. -/
def scaleUp : Nat → Nat → Nat → Nat → Nat
  | 0, _, _, k => k
  | fuel + 1, a, b, k => if 2 ^ 52 * b ≤ a * 2 ^ k then k else scaleUp fuel a b (k + 1)

/-- The least `j` from the given one on with `a / b < 2^53 * 2^j`: the scale
that brings a rational of `2^53` or more to 53 significant bits. The first
argument bounds the number of steps. -/
def scaleDown : Nat → Nat → Nat → Nat → Nat
  | 0, _, _, j => j
  | fuel + 1, a, b, j => if a < 2 ^ 53 * (b * 2 ^ j) then j else scaleDown fuel a b (j + 1)

/-- Rounding of the non-negative rational `a / b` to the nearest binary64, ties
to even: the pair `(m, k)` stands for `m / 2^k`, with `m` the quotient scaled to
53 significant bits and rounded. -/
def roundFloat64 (a b : Nat) : Nat × Nat :=
  if a = 0 then (0, 0)
  else if a < 2 ^ 53 * b then
    (roundHalfEven (a * 2 ^ (scaleUp (53 + b) a b 0)) b, scaleUp (53 + b) a b 0)
  else
    (roundHalfEven a (b * 2 ^ (scaleDown a a b 0)) * 2 ^ (scaleDown a a b 0), 0)

/-- Type `float64`: a finite binary64 value, the rational `num / 2^exp`. -/
structure float64 where
  num : Int
  exp : Nat
deriving DecidableEq, Repr

/-- The binary64 nearest to the rational `a / b`, `b` positive; rounding is
symmetric in the sign. -/
def float64.round (a : Int) (b : Nat) : float64 :=
  ⟨Int.sign a * (roundFloat64 a.natAbs b).1, (roundFloat64 a.natAbs b).2⟩

/-- Conversion `float64(x)` of an integer: exact up to `2^53` in magnitude,
rounded beyond. -/
def float64.ofInt (x : Int) : float64 :=
  if x.natAbs ≤ 2 ^ 53 then ⟨x, 0⟩ else float64.round x 1

/-- Operation `x + y` on `float64`: the exact sum, rounded. -/
def float64.add (x y : float64) : float64 :=
  float64.round (x.num * 2 ^ (max x.exp y.exp - x.exp) + y.num * 2 ^ (max x.exp y.exp - y.exp))
    (2 ^ max x.exp y.exp)

/-- Operation `x / y` on `float64`, `y` not zero: the exact quotient, rounded. -/
def float64.div (x y : float64) : float64 :=
  float64.round (Int.sign y.num * x.num * 2 ^ y.exp) (y.num.natAbs * 2 ^ x.exp)

/-- Conversion `int(x)` of a `float64`: truncation toward zero. -/
def float64.toInt (x : float64) : Int := Int.tdiv x.num (2 ^ x.exp)

/-- Method `d.Hours()` of `time.Duration`:
`hour := d / Hour; nsec := d % Hour; return float64(hour) + float64(nsec)/(60*60*1e9)`. -/
def Duration.Hours (d : Duration) : float64 :=
  let hour := Int.tdiv d 3600000000000
  let nsec := Int.tmod d 3600000000000
  float64.add (float64.ofInt hour)
    (float64.div (float64.ofInt nsec) (float64.ofInt 3600000000000))

/-- Method `d.Minutes()` of `time.Duration`:
`min := d / Minute; nsec := d % Minute; return float64(min) + float64(nsec)/(60*1e9)`. -/
def Duration.Minutes (d : Duration) : float64 :=
  let min := Int.tdiv d 60000000000
  let nsec := Int.tmod d 60000000000
  float64.add (float64.ofInt min)
    (float64.div (float64.ofInt nsec) (float64.ofInt 60000000000))

/-- Method `d.Seconds()` of `time.Duration`:
`sec := d / Second; nsec := d % Second; return float64(sec) + float64(nsec)/1e9`. -/
def Duration.Seconds (d : Duration) : float64 :=
  let sec := Int.tdiv d 1000000000
  let nsec := Int.tmod d 1000000000
  float64.add (float64.ofInt sec)
    (float64.div (float64.ofInt nsec) (float64.ofInt 1000000000))

/-- Method `d.Nanoseconds()`: the duration as an `int64` nanosecond count. -/
def Duration.Nanoseconds (d : Duration) : Int := d

/-- The digit loop of the integer formatting of package `fmt` in base 10: the digits of `u`
are written right to left in front of `buf`
(`for u >= 10 { next := u / 10; buf[i] = '0' + u - next*10; u = next }`, then
the last digit). The first argument bounds the number of iterations; `u`
itself is always enough. -/
def fmtDigits : Nat → Nat → List Char → List Char
  | 0, u, buf => Nat.digitChar u :: buf
  | fuel + 1, u, buf =>
    if 10 ≤ u then fmtDigits fuel (u / 10) (Nat.digitChar (u - (u / 10) * 10) :: buf)
    else Nat.digitChar u :: buf

/-- The verb `%0wd` of `fmt.Sprintf` applied to a signed integer: with the zero
flag and a width, the precision is the width, less one when a sign is
written; the digits are padded on the left with zeros up to the precision and
the sign comes first. A number with more digits is written in full. -/
def fmtInteger (wid : Nat) (x : Int) : List Char :=
  let negative : Bool := decide (x < 0)
  let u := x.natAbs
  let prec := if negative then wid - 1 else wid
  let digits := fmtDigits u u []
  let buf := List.replicate (prec - digits.length) '0' ++ digits
  if negative then '-' :: buf else buf

/-- The call `fmt.Sprintf("%02d.%02d:%02d:%02d.%04d", a, b, c, d, e)`. -/
def Sprintf (a b c d e : Int) : String :=
  String.mk (fmtInteger 2 a ++ '.' :: fmtInteger 2 b ++ ':' :: fmtInteger 2 c
    ++ ':' :: fmtInteger 2 d ++ '.' :: fmtInteger 4 e)

/-! ## The duration arithmetic of `NewRequestTelemetry` -/

/-- Local `refHours = int(duration.Hours())`. -/
def refHours (duration : Duration) : Int := wrapInt duration.Hours.toInt

/-- Local `refMinutes = int(duration.Minutes())`. -/
def refMinutes (duration : Duration) : Int := wrapInt duration.Minutes.toInt

/-- Local `refSeconds = int(duration.Seconds())`. -/
def refSeconds (duration : Duration) : Int := wrapInt duration.Seconds.toInt

/-- Local `refMilliPlusOne = int(duration.Nanoseconds() / 1e3)`. -/
def refMilliPlusOne (duration : Duration) : Int :=
  wrapInt (Int.tdiv duration.Nanoseconds 1000)

/-- Local `days = refHours / 24`. -/
def days (duration : Duration) : Int := wrapInt (Int.tdiv (refHours duration) 24)

/-- Local `hours = refHours - days*24`. -/
def hours (duration : Duration) : Int :=
  wrapInt (refHours duration - wrapInt (days duration * 24))

/-- Local `minutes = refMinutes - refHours*60`. -/
def minutes (duration : Duration) : Int :=
  wrapInt (refMinutes duration - wrapInt (refHours duration * 60))

/-- Local `seconds = refSeconds - refMinutes*60`. -/
def seconds (duration : Duration) : Int :=
  wrapInt (refSeconds duration - wrapInt (refMinutes duration * 60))

/-- Local `milliPlusOne = refMilliPlusOne - refSeconds*1e6`. -/
def milliPlusOne (duration : Duration) : Int :=
  wrapInt (refMilliPlusOne duration - wrapInt (refSeconds duration * 1000000))

/-- Local `durationString`, the `Duration` field of the request payload. -/
def durationString (duration : Duration) : String :=
  Sprintf (days duration) (hours duration) (minutes duration) (seconds duration)
    (milliPlusOne duration)

/-! ## Services outside the package -/

/-- Type `time.Time` of the standard library: an instant (seconds and
nanoseconds since the epoch) with the offset of its location. -/
structure Time where
  sec : Int
  nsec : Nat
  offset : Int
deriving DecidableEq, Repr

/-- The zero value of `time.Time`. -/
def Time.zero : Time := ⟨0, 0, 0⟩

/-- Constant `time.RFC3339Nano`, the layout of RFC 3339 with nanoseconds. -/
def RFC3339Nano : String := "2006-01-02T15:04:05.999999999Z07:00"

/-- Modelled from the spec: the interface type `TelemetryContext` is declared
outside the source file. A value is nil or a reference to one context
instance, named by its allocation number. -/
inductive TelemetryContext where
  | null
  | ref (id : Nat)
deriving DecidableEq, Repr

/-- Modelled from the spec: the type `SeverityLevel` is declared outside the
source file; it is an integer level. -/
abbrev SeverityLevel := Int

/-- Type `float32`, held as its 32-bit pattern. -/
structure float32 where
  bits : Nat
deriving DecidableEq, Repr

/-- The services the constructors call and the package does not define: the
successive readings of the clock, the successive identifiers of the generator,
the number of contexts created so far, and the rendering of `Time.Format`. -/
structure World where
  clock : Nat → Time
  clockReads : Nat
  uuids : Nat → String
  uuidCalls : Nat
  contexts : Nat
  timeFormat : Time → String → String

/-- Call `time.Now()`: the next reading of the clock. -/
def timeNow (w : World) : Time × World :=
  (w.clock w.clockReads, { w with clockReads := w.clockReads + 1 })

/-- Call `uuid.NewV4().String()`: the next identifier, in textual form. -/
def uuidNewV4String (w : World) : String × World :=
  (w.uuids w.uuidCalls, { w with uuidCalls := w.uuidCalls + 1 })

/-- Modelled from the spec: the factory `NewItemTelemetryContext` is defined
outside the source file; it takes no argument and returns a fresh,
independently owned context, that is a reference to a newly allocated
instance. -/
def NewItemTelemetryContext (w : World) : TelemetryContext × World :=
  (TelemetryContext.ref w.contexts, { w with contexts := w.contexts + 1 })

/-- Call `make([]T, n)`: a slice of `n` zero values, nil for a pointer type. -/
def make {α : Type} (n : Nat) : List (Option α) := List.replicate n none

/-- Assignment `s[i] = v` on a slice of pointers: a run-time panic (`none`) when
`i` is out of range. -/
def sliceSet {α : Type} (s : List (Option α)) (i : Nat) (v : α) : Option (List (Option α)) :=
  if i < s.length then some (s.set i (some v)) else none

/-! ## Payloads -/

/-- Modelled from the spec: payload `messageData`, declared outside the source
file, with the fields the constructor assigns. -/
structure messageData where
  Ver : Int
  Message : String
deriving DecidableEq, Repr

/-- Modelled from the spec: payload `eventData`, declared outside the source
file, with the fields the constructor assigns. -/
structure eventData where
  Ver : Int
  Name : String
deriving DecidableEq, Repr

/-- Modelled from the spec: type `DataPoint`, declared outside the source
file, with the fields the constructor assigns. -/
structure DataPoint where
  Name : String
  Value : float32
  Count : Int
deriving DecidableEq, Repr

/-- Modelled from the spec: payload `metricData`, declared outside the source
file, with the fields the constructor assigns. -/
structure metricData where
  Ver : Int
  Metrics : List (Option DataPoint)
deriving DecidableEq, Repr

/-- Modelled from the spec: payload `requestData`, declared outside the source
file, with the fields the constructor assigns. -/
structure requestData where
  Ver : Int
  Id : String
  Name : String
  StartTime : String
  Duration : String
  ResponseCode : String
  Success : Bool
deriving DecidableEq, Repr

/-- Modelled from the spec: the payload abstraction `Domain`, declared outside
the source file; the values the source returns as `Domain` are the four
payloads. -/
inductive Domain where
  | message (d : messageData)
  | event (d : eventData)
  | metric (d : metricData)
  | request (d : requestData)
deriving DecidableEq, Repr

/-- Field `Ver` of a payload. -/
def Domain.Ver : Domain → Int
  | .message d => d.Ver
  | .event d => d.Ver
  | .metric d => d.Ver
  | .request d => d.Ver

/-! ## Records -/

/-- Struct `BaseTelemetry`. -/
structure BaseTelemetry where
  timestamp : Time
  context : TelemetryContext
deriving DecidableEq, Repr

/-- Struct `TraceTelemetry`. -/
structure TraceTelemetry extends BaseTelemetry where
  data : messageData
deriving DecidableEq, Repr

/-- Struct `EventTelemetry`. -/
structure EventTelemetry extends BaseTelemetry where
  data : eventData
deriving DecidableEq, Repr

/-- Struct `MetricTelemetry`. -/
structure MetricTelemetry extends BaseTelemetry where
  data : metricData
deriving DecidableEq, Repr

/-- Struct `RequestTelemetry`. -/
structure RequestTelemetry extends BaseTelemetry where
  data : requestData
deriving DecidableEq, Repr

/-- Constructor `NewTraceTelemetry`. -/
def NewTraceTelemetry (message : String) (_severityLevel : SeverityLevel) (w : World) :
    TraceTelemetry × World :=
  let now := (timeNow w).1
  let w1 := (timeNow w).2
  let data : messageData := { Ver := 0, Message := message }
  let data := { data with Ver := 2 }
  let item : TraceTelemetry :=
    { timestamp := Time.zero, context := TelemetryContext.null, data := data }
  let item := { item with timestamp := now }
  let item := { item with context := (NewItemTelemetryContext w1).1 }
  (item, (NewItemTelemetryContext w1).2)

/-- Method `TraceTelemetry.Timestamp`. -/
def TraceTelemetry.Timestamp (item : TraceTelemetry) : Time := item.timestamp

/-- Method `TraceTelemetry.Context`. -/
def TraceTelemetry.Context (item : TraceTelemetry) : TelemetryContext := item.context

/-- Method `TraceTelemetry.baseTypeName`. -/
def TraceTelemetry.baseTypeName (_item : TraceTelemetry) : String := "Message"

/-- Method `TraceTelemetry.baseData`. -/
def TraceTelemetry.baseData (item : TraceTelemetry) : Domain := Domain.message item.data

/-- Constructor `NewEventTelemetry`. -/
def NewEventTelemetry (name : String) (w : World) : EventTelemetry × World :=
  let now := (timeNow w).1
  let w1 := (timeNow w).2
  let data : eventData := { Ver := 0, Name := name }
  let data := { data with Ver := 2 }
  let item : EventTelemetry :=
    { timestamp := Time.zero, context := TelemetryContext.null, data := data }
  let item := { item with timestamp := now }
  let item := { item with context := (NewItemTelemetryContext w1).1 }
  (item, (NewItemTelemetryContext w1).2)

/-- Method `EventTelemetry.Timestamp`. -/
def EventTelemetry.Timestamp (item : EventTelemetry) : Time := item.timestamp

/-- Method `EventTelemetry.Context`. -/
def EventTelemetry.Context (item : EventTelemetry) : TelemetryContext := item.context

/-- Method `EventTelemetry.baseTypeName`. -/
def EventTelemetry.baseTypeName (_item : EventTelemetry) : String := "Event"

/-- Method `EventTelemetry.baseData`. -/
def EventTelemetry.baseData (item : EventTelemetry) : Domain := Domain.event item.data

/-- Constructor `NewMetricTelemetry`; `none` is a run-time panic of the index
assignment `data.Metrics[0] = metric`. -/
def NewMetricTelemetry (name : String) (value : float32) (w : World) :
    Option (MetricTelemetry × World) :=
  let now := (timeNow w).1
  let w1 := (timeNow w).2
  let metric : DataPoint := { Name := name, Value := value, Count := 1 }
  let data : metricData := { Ver := 0, Metrics := make 1 }
  let data := { data with Ver := 2 }
  match sliceSet data.Metrics 0 metric with
  | none => none
  | some metrics =>
    let data := { data with Metrics := metrics }
    let item : MetricTelemetry :=
      { timestamp := Time.zero, context := TelemetryContext.null, data := data }
    let item := { item with timestamp := now }
    let item := { item with context := (NewItemTelemetryContext w1).1 }
    some (item, (NewItemTelemetryContext w1).2)

/-- Method `MetricTelemetry.Timestamp`. -/
def MetricTelemetry.Timestamp (item : MetricTelemetry) : Time := item.timestamp

/-- Method `MetricTelemetry.Context`. -/
def MetricTelemetry.Context (item : MetricTelemetry) : TelemetryContext := item.context

/-- Method `MetricTelemetry.baseTypeName`. -/
def MetricTelemetry.baseTypeName (_item : MetricTelemetry) : String := "Metric"

/-- Method `MetricTelemetry.baseData`. -/
def MetricTelemetry.baseData (item : MetricTelemetry) : Domain := Domain.metric item.data

/-- Constructor `NewRequestTelemetry`. -/
def NewRequestTelemetry (name : String) (timestamp : Time) (duration : Duration)
    (responseCode : String) (success : Bool) (w : World) : RequestTelemetry × World :=
  let now := (timeNow w).1
  let w1 := (timeNow w).2
  let durationString := durationString duration
  let data : requestData :=
    { Ver := 0
      Id := (uuidNewV4String w1).1
      Name := name
      StartTime := w1.timeFormat timestamp RFC3339Nano
      Duration := durationString
      ResponseCode := responseCode
      Success := success }
  let w2 := (uuidNewV4String w1).2
  let data := { data with Ver := 2 }
  let item : RequestTelemetry :=
    { timestamp := Time.zero, context := TelemetryContext.null, data := data }
  let item := { item with timestamp := now }
  let item := { item with context := (NewItemTelemetryContext w2).1 }
  (item, (NewItemTelemetryContext w2).2)

/-- Method `RequestTelemetry.Timestamp`. -/
def RequestTelemetry.Timestamp (item : RequestTelemetry) : Time := item.timestamp

/-- Method `RequestTelemetry.Context`. -/
def RequestTelemetry.Context (item : RequestTelemetry) : TelemetryContext := item.context

/-- Method `RequestTelemetry.baseTypeName`. -/
def RequestTelemetry.baseTypeName (_item : RequestTelemetry) : String := "Request"

/-- Method `RequestTelemetry.baseData`. -/
def RequestTelemetry.baseData (item : RequestTelemetry) : Domain := Domain.request item.data

/-- Interface `Telemetry`: the four record types of the file implement it. -/
inductive Telemetry where
  | trace (item : TraceTelemetry)
  | event (item : EventTelemetry)
  | metric (item : MetricTelemetry)
  | request (item : RequestTelemetry)
deriving DecidableEq, Repr

/-- Interface method `Timestamp`. -/
def Telemetry.Timestamp : Telemetry → Time
  | .trace item => item.Timestamp
  | .event item => item.Timestamp
  | .metric item => item.Timestamp
  | .request item => item.Timestamp

/-- Interface method `Context`. -/
def Telemetry.Context : Telemetry → TelemetryContext
  | .trace item => item.Context
  | .event item => item.Context
  | .metric item => item.Context
  | .request item => item.Context

/-- Interface method `baseTypeName`. -/
def Telemetry.baseTypeName : Telemetry → String
  | .trace item => item.baseTypeName
  | .event item => item.baseTypeName
  | .metric item => item.baseTypeName
  | .request item => item.baseTypeName

/-- Interface method `baseData`. -/
def Telemetry.baseData : Telemetry → Domain
  | .trace item => item.baseData
  | .event item => item.baseData
  | .metric item => item.baseData
  | .request item => item.baseData

/-! ## Sequences of constructor calls -/

/-- One call of a constructor of the package, with its arguments. -/
inductive Call where
  | trace (message : String) (severityLevel : SeverityLevel)
  | event (name : String)
  | metric (name : String) (value : float32)
  | request (name : String) (timestamp : Time) (duration : Duration) (responseCode : String)
      (success : Bool)

/-- The record a call constructs, as a `Telemetry`, and the world after it;
`none` is a run-time panic. -/
def Call.run : Call → World → Option (Telemetry × World)
  | .trace message severityLevel, w =>
    some (Telemetry.trace (NewTraceTelemetry message severityLevel w).1,
      (NewTraceTelemetry message severityLevel w).2)
  | .event name, w =>
    some (Telemetry.event (NewEventTelemetry name w).1, (NewEventTelemetry name w).2)
  | .metric name value, w =>
    match NewMetricTelemetry name value w with
    | none => none
    | some r => some (Telemetry.metric r.1, r.2)
  | .request name timestamp duration responseCode success, w =>
    some (Telemetry.request (NewRequestTelemetry name timestamp duration responseCode success w).1,
      (NewRequestTelemetry name timestamp duration responseCode success w).2)

/-- The records of a sequence of calls made one after the other, in order. -/
def runCalls : List Call → World → Option (List Telemetry × World)
  | [], w => some ([], w)
  | c :: cs, w =>
    match c.run w with
    | none => none
    | some r =>
      match runCalls cs r.2 with
      | none => none
      | some rs => some (r.1 :: rs.1, rs.2)

/-! ## Specification-side definitions -/

/-- Specification: the natural number `n` in decimal, padded on the left with
zeros to at least `w` digits. -/
def zeroPadded (w n : Nat) : List Char := List.leftpad w '0' (Nat.toDigits 10 n)

/-- Specification: five numbers joined as `days.hours:minutes:seconds.subsecond`,
zero-padded to at least 2, 2, 2, 2 and 4 digits. -/
def timespanString (d h m s u : Nat) : String :=
  String.mk (zeroPadded 2 d ++ ['.'] ++ zeroPadded 2 h ++ [':'] ++ zeroPadded 2 m ++ [':']
    ++ zeroPadded 2 s ++ ['.'] ++ zeroPadded 4 u)

/-- Specification: the duration of `d` days, `h` hours, `m` minutes, `s` seconds
and `u` microseconds, as a nanosecond count. -/
def durationOf (d h m s u : Nat) : Int :=
  (d : Int) * 86400000000000 + (h : Int) * 3600000000000 + (m : Int) * 60000000000
    + (s : Int) * 1000000000 + (u : Int) * 1000

/-- Specification: the components of a standard modulo-based timespan formatter,
with truncating division and its remainder: days, hours, minutes, seconds and
sub-second part of the microsecond count `U`, the hours, minutes and seconds
being taken from the whole hours `H`, minutes `M` and seconds `S`. -/
def moduloComponents (H M S U : Int) : Int × Int × Int × Int × Int :=
  (Int.tdiv U 86400000000, Int.tmod H 24, Int.tmod M 60, Int.tmod S 60, Int.tmod U 1000000)

/-- Specification: the string of a standard modulo-based timespan formatter for
the duration `d`, with `H`, `M`, `S` its whole hours, minutes and seconds
truncated toward zero and `U` its nanoseconds divided by 1000. -/
def moduloDurationString (d : Int) : String :=
  let c := moduloComponents (Int.tdiv d 3600000000000) (Int.tdiv d 60000000000)
    (Int.tdiv d 1000000000) (Int.tdiv d 1000)
  Sprintf c.1 c.2.1 c.2.2.1 c.2.2.2.1 c.2.2.2.2

/-- Specification: the shape `DD.HH:MM:SS.ffff`, two digits for each of the
first four fields and four for the last, with the separators `.`, `:`, `:`
and `.`. -/
def isFixedWidth (str : String) : Prop :=
  ∃ dd hh mm ss ff : List Char,
    dd.length = 2 ∧ hh.length = 2 ∧ mm.length = 2 ∧ ss.length = 2 ∧ ff.length = 4 ∧
    (∀ c ∈ dd ++ hh ++ mm ++ ss ++ ff, c.isDigit = true) ∧
    str = String.mk (dd ++ ['.'] ++ hh ++ [':'] ++ mm ++ [':'] ++ ss ++ ['.'] ++ ff)

/-- Specification: the number a list of decimal digits denotes, most significant
digit first. -/
def decodeDigits (l : List Char) : Nat :=
  l.foldl (fun acc c => 10 * acc + (c.toNat - 48)) 0

/-- Specification: every character of the list is a decimal digit. -/
def allDigits (l : List Char) : Prop := ∀ c ∈ l, c.isDigit = true

instance (l : List Char) : Decidable (allDigits l) := by
  unfold allDigits
  exact inferInstance

/-! ## Auxiliary definitions for the binary64 lemmas -/

/-- The opposite of a `float64`. -/
def float64.neg (x : float64) : float64 := ⟨-x.num, x.exp⟩

/-- The whole part of the rounded sum `h + n / c` of a natural and a fraction,
both roundings done on magnitudes. -/
def truncSum (h n c : Nat) : Nat :=
  (roundFloat64 (h * 2 ^ (roundFloat64 n c).2 + (roundFloat64 n c).1)
      (2 ^ (roundFloat64 n c).2)).1
    / 2 ^ (roundFloat64 (h * 2 ^ (roundFloat64 n c).2 + (roundFloat64 n c).1)
      (2 ^ (roundFloat64 n c).2)).2

/-- The body shared by `Hours`, `Minutes` and `Seconds`, for the unit `c`. -/
def fracSum (d : Int) (c : Nat) : float64 :=
  float64.add (float64.ofInt (Int.tdiv d c))
    (float64.div (float64.ofInt (Int.tmod d c)) (float64.ofInt c))

/-- The conversions `int(d.Hours())`, `int(d.Minutes())` and `int(d.Seconds())`
give the whole hours, minutes and seconds of `d` truncated toward zero. -/
def floatExact (d : Int) : Prop :=
  (Duration.Hours d).toInt = Int.tdiv d 3600000000000 ∧
  (Duration.Minutes d).toInt = Int.tdiv d 60000000000 ∧
  (Duration.Seconds d).toInt = Int.tdiv d 1000000000

/-! ## Lemmas on the binary64 rounding -/

theorem roundHalfEven_bounds (a b : Nat) (hb : 0 < b) :
    2 * (b * roundHalfEven a b) ≤ 2 * a + b ∧ 2 * a ≤ 2 * (b * roundHalfEven a b) + b := by
  have hd := Nat.div_add_mod a b
  have hm := Nat.mod_lt a hb
  have hs : b * (a / b + 1) = b * (a / b) + b := Nat.mul_succ b (a / b)
  unfold roundHalfEven
  split
  · omega
  · split
    · rw [hs]
      omega
    · split
      · omega
      · rw [hs]
        omega

theorem roundHalfEven_ge (a b N : Nat) (hb : 0 < b) (h : N * b ≤ a) : N ≤ roundHalfEven a b := by
  have hq : N ≤ a / b := (Nat.le_div_iff_mul_le hb).mpr h
  unfold roundHalfEven
  split
  · exact hq
  · split
    · omega
    · split <;> omega

theorem roundHalfEven_le (a b N : Nat) (hb : 0 < b) (h : a ≤ N * b) : roundHalfEven a b ≤ N := by
  obtain ⟨h1, _⟩ := roundHalfEven_bounds a b hb
  by_contra hc
  have h2 : N + 1 ≤ roundHalfEven a b := by omega
  have h3 : b * (N + 1) ≤ b * roundHalfEven a b := Nat.mul_le_mul_left b h2
  have h4 : b * (N + 1) = N * b + b := by rw [Nat.mul_succ, Nat.mul_comm]
  omega

theorem roundHalfEven_lt (a b N : Nat) (hb : 0 < b) (h : 2 * a + b < 2 * (N * b)) :
    roundHalfEven a b < N := by
  obtain ⟨h1, _⟩ := roundHalfEven_bounds a b hb
  by_contra hc
  have h2 : N ≤ roundHalfEven a b := by omega
  have h3 : b * N ≤ b * roundHalfEven a b := Nat.mul_le_mul_left b h2
  have h4 : b * N = N * b := Nat.mul_comm b N
  omega

theorem roundHalfEven_one (a : Nat) : roundHalfEven a 1 = a := by
  simp [roundHalfEven, Nat.mod_one]

theorem scaleUp_spec (a b : Nat) : ∀ (fuel k : Nat), 2 ^ 52 * b ≤ a * 2 ^ (k + fuel) →
    a * 2 ^ k < 2 ^ 53 * b →
    2 ^ 52 * b ≤ a * 2 ^ scaleUp fuel a b k ∧ a * 2 ^ scaleUp fuel a b k < 2 ^ 53 * b := by
  intro fuel
  induction fuel with
  | zero =>
    intro k h1 h2
    exact ⟨h1, h2⟩
  | succ fuel ih =>
    intro k h1 h2
    unfold scaleUp
    split
    · rename_i ht
      exact ⟨ht, h2⟩
    · rename_i ht
      apply ih (k + 1)
      · have e : k + 1 + fuel = k + (fuel + 1) := by omega
        rw [e]
        exact h1
      · have e : a * 2 ^ (k + 1) = 2 * (a * 2 ^ k) := by
          rw [Nat.pow_succ]
          ring
        have e2 : 2 ^ 53 * b = 2 * (2 ^ 52 * b) := by ring
        rw [e, e2]
        omega

theorem roundFloat64_spec (a b : Nat) (ha : 0 < a) (_hb : 0 < b) (hab : a < 2 ^ 53 * b) :
    2 ^ 52 * b ≤ a * 2 ^ (roundFloat64 a b).2 ∧ a * 2 ^ (roundFloat64 a b).2 < 2 ^ 53 * b ∧
    (roundFloat64 a b).1 = roundHalfEven (a * 2 ^ (roundFloat64 a b).2) b := by
  have h0 : ¬ a = 0 := by omega
  have e : roundFloat64 a b
      = (roundHalfEven (a * 2 ^ (scaleUp (53 + b) a b 0)) b, scaleUp (53 + b) a b 0) := by
    unfold roundFloat64
    rw [if_neg h0, if_pos hab]
  have hfuel : 2 ^ 52 * b ≤ a * 2 ^ (0 + (53 + b)) := by
    have h1 : b < 2 ^ b := Nat.lt_two_pow b
    have h2 : 2 ^ (0 + (53 + b)) = 2 ^ 53 * 2 ^ b := by
      rw [Nat.zero_add, Nat.pow_add]
    rw [h2]
    calc 2 ^ 52 * b ≤ 2 ^ 53 * 2 ^ b := Nat.mul_le_mul (by decide) (Nat.le_of_lt h1)
      _ = 1 * (2 ^ 53 * 2 ^ b) := (Nat.one_mul _).symm
      _ ≤ a * (2 ^ 53 * 2 ^ b) := Nat.mul_le_mul_right _ ha
  obtain ⟨s1, s2⟩ := scaleUp_spec a b (53 + b) 0 hfuel (by simpa using hab)
  rw [e]
  exact ⟨s1, s2, rfl⟩

theorem roundFloat64_zero (b : Nat) : roundFloat64 0 b = (0, 0) := by
  simp [roundFloat64]

theorem truncSum_of_zero (h c : Nat) (hh : h < 2 ^ 53) : truncSum h 0 c = h := by
  unfold truncSum
  rw [roundFloat64_zero]
  simp only [Nat.pow_zero, Nat.mul_one, Nat.add_zero]
  by_cases h0 : h = 0
  · subst h0
    rw [roundFloat64_zero]
    rfl
  · obtain ⟨_, _, s3⟩ := roundFloat64_spec h 1 (by omega) (by decide) (by omega)
    rw [s3, roundHalfEven_one]
    exact Nat.mul_div_cancel h (Nat.pow_pos (by decide))

theorem two_pow_ge_of_gt (s : Nat) (h : 2 ^ 52 < 2 ^ s) : 2 ^ 53 ≤ 2 ^ s := by
  have hs : 52 < s := (Nat.pow_lt_pow_iff_right (by decide)).mp h
  exact Nat.pow_le_pow_right (by decide) hs

/-- The facts about the two roundings behind `truncSum` for a positive fraction. -/
theorem truncSum_facts (h n c : Nat) (hn0 : 0 < n) (hn : n < c) (hh : h + 1 ≤ 2 ^ 52) :
    ∃ P K M m : Nat, truncSum h n c = m / K ∧ 0 < K ∧ 2 ^ 53 ≤ P ∧ 0 < M ∧ M ≤ P ∧
      2 * (c * M) ≤ 2 * (n * P) + c ∧
      2 ^ 52 * P ≤ (h * P + M) * K ∧
      m = roundHalfEven ((h * P + M) * K) P ∧
      (∃ k, K = 2 ^ k) := by
  have hc : 0 < c := by omega
  obtain ⟨q1, q2, q3⟩ := roundFloat64_spec n c hn0 hc (by
    have : c ≤ 2 ^ 53 * c := Nat.le_mul_of_pos_left c (by decide)
    omega)
  generalize hP : 2 ^ (roundFloat64 n c).2 = P at q1 q2 q3
  generalize hM : (roundFloat64 n c).1 = M at q3
  have hPpos : 0 < P := by
    rw [← hP]
    exact Nat.pow_pos (by decide)
  have hP53 : 2 ^ 53 ≤ P := by
    rw [← hP]
    apply two_pow_ge_of_gt
    rw [hP]
    by_contra hcon
    have h1 : P ≤ 2 ^ 52 := by omega
    have h2 : n * P ≤ n * 2 ^ 52 := Nat.mul_le_mul_left n h1
    have h3 : n * 2 ^ 52 < c * 2 ^ 52 := Nat.mul_lt_mul_of_pos_right hn (by decide)
    have h4 : c * 2 ^ 52 = 2 ^ 52 * c := Nat.mul_comm _ _
    omega
  have hMle : M ≤ P := by
    rw [q3]
    apply roundHalfEven_le _ _ _ hc
    exact Nat.mul_le_mul (Nat.le_of_lt hn) (Nat.le_refl P) |>.trans (by
      rw [Nat.mul_comm c P])
  have hMpos : 0 < M := by
    have : 2 ^ 52 ≤ M := by
      rw [q3]
      exact roundHalfEven_ge _ _ _ hc q1
    have : 0 < 2 ^ 52 := by decide
    omega
  have hMb : 2 * (c * M) ≤ 2 * (n * P) + c := by
    rw [q3]
    exact (roundHalfEven_bounds (n * P) c hc).1
  have ha0 : 0 < h * P + M := by omega
  have ha : h * P + M < 2 ^ 53 * P := by
    have h1 : h * P + M ≤ (h + 1) * P := by
      rw [Nat.add_mul, Nat.one_mul]
      omega
    have h2 : (h + 1) * P ≤ 2 ^ 52 * P := Nat.mul_le_mul_right P hh
    have h3 : 2 ^ 52 * P < 2 ^ 53 * P := Nat.mul_lt_mul_of_pos_right (by decide) hPpos
    omega
  obtain ⟨r1, r2, r3⟩ := roundFloat64_spec (h * P + M) P ha0 hPpos ha
  refine ⟨P, 2 ^ (roundFloat64 (h * P + M) P).2, M, (roundFloat64 (h * P + M) P).1, ?_,
    Nat.pow_pos (by decide), hP53, hMpos, hMle, hMb, r1, r3, ⟨_, rfl⟩⟩
  unfold truncSum
  rw [hP, hM]

theorem truncSum_bounds (h n c : Nat) (hn : n < c) (hh : h + 1 ≤ 2 ^ 52) :
    h ≤ truncSum h n c ∧ truncSum h n c ≤ h + 1 := by
  by_cases hn0 : n = 0
  · subst hn0
    rw [truncSum_of_zero h c (by
      have : (2 : Nat) ^ 52 < 2 ^ 53 := by decide
      omega)]
    omega
  · obtain ⟨P, K, M, m, e, hK, hP, hM0, hMP, hMb, hs, hm, _⟩ :=
      truncSum_facts h n c (by omega) hn hh
    have hPpos : 0 < P := by
      have : 0 < 2 ^ 53 := by decide
      omega
    rw [e]
    constructor
    · apply (Nat.le_div_iff_mul_le hK).mpr
      rw [hm]
      apply roundHalfEven_ge _ _ _ hPpos
      have : h * P ≤ h * P + M := Nat.le_add_right _ _
      calc h * K * P = h * P * K := by ring
        _ ≤ (h * P + M) * K := Nat.mul_le_mul_right K this
    · apply Nat.div_le_of_le_mul
      rw [hm]
      apply roundHalfEven_le _ _ _ hPpos
      have : h * P + M ≤ (h + 1) * P := by
        rw [Nat.add_mul, Nat.one_mul]
        omega
      calc (h * P + M) * K ≤ (h + 1) * P * K := Nat.mul_le_mul_right K this
        _ = K * (h + 1) * P := by ring

/-- The truncated sum is the whole part when the fraction stays clear of one by
the margin. -/
theorem truncSum_exact (h n c T : Nat) (hn : n < c) (hh : h + 1 ≤ 2 ^ 52)
    (hT : (h + 1) * 2 ^ T ≤ 2 ^ 53)
    (hmar : ∀ P K : Nat, 2 ^ 53 ≤ P → 2 ^ T ≤ K →
      c * K + c * P + 2 * (n * (P * K)) < 2 * (c * (P * K))) :
    truncSum h n c = h := by
  by_cases hn0 : n = 0
  · subst hn0
    exact truncSum_of_zero h c (by
      have : (2 : Nat) ^ 52 < 2 ^ 53 := by decide
      omega)
  · obtain ⟨P, K, M, m, e, hK, hP, hM0, hMP, hMb, hs, hm, ⟨k, hk⟩⟩ :=
      truncSum_facts h n c (by omega) hn hh
    have hPpos : 0 < P := by
      have : 0 < 2 ^ 53 := by decide
      omega
    have hc : 0 < c := by omega
    have hlow := (truncSum_bounds h n c hn hh).1
    -- the rounded fraction is below one
    have hMlt : M < P := by
      by_contra hcon
      have hPM : P ≤ M := by omega
      have h1 := hmar P (2 ^ T) hP (Nat.le_refl _)
      have h2 : c * P ≤ c * M := Nat.mul_le_mul_left c hPM
      have h3 : (2 * (c * P)) * 2 ^ T ≤ (2 * (n * P) + c) * 2 ^ T :=
        Nat.mul_le_mul_right _ (by omega)
      have h4 : (2 * (c * P)) * 2 ^ T = 2 * (c * (P * 2 ^ T)) := by ring
      have h5 : (2 * (n * P) + c) * 2 ^ T = 2 * (n * (P * 2 ^ T)) + c * 2 ^ T := by ring
      have h6 : 0 < c * P := Nat.mul_pos hc hPpos
      omega
    -- the scale of the sum is at least the given one
    have hKT : 2 ^ T ≤ K := by
      rw [hk]
      apply Nat.pow_le_pow_right (by decide)
      by_contra hcon
      have hkT : k + 1 ≤ T := by omega
      have h1 : 2 ^ (k + 1) ≤ 2 ^ T := Nat.pow_le_pow_right (by decide) hkT
      have h2 : 2 ^ (k + 1) = 2 * K := by
        rw [hk, Nat.pow_succ, Nat.mul_comm]
      have h3 : (h * P + M) * K < (h + 1) * P * K := by
        apply Nat.mul_lt_mul_of_pos_right _ hK
        rw [Nat.add_mul, Nat.one_mul]
        omega
      have h4 : (h + 1) * (2 * K) ≤ 2 ^ 53 :=
        (Nat.mul_le_mul_left (h + 1) (h2 ▸ h1)).trans hT
      have h5 : (h + 1) * (2 * K) * P ≤ 2 ^ 53 * P := Nat.mul_le_mul_right P h4
      have h6 : (h + 1) * (2 * K) * P = 2 * ((h + 1) * P * K) := by ring
      have h7 : 2 ^ 53 * P = 2 * (2 ^ 52 * P) := by ring
      omega
    have hmarg := hmar P K hP hKT
    have hup : m < (h + 1) * K := by
      rw [hm]
      apply roundHalfEven_lt _ _ _ hPpos
      have g1 : (2 * (c * M)) * K ≤ (2 * (n * P) + c) * K := Nat.mul_le_mul_right K hMb
      have g2 : (2 * (c * M)) * K = 2 * (c * (M * K)) := by ring
      have g3 : (2 * (n * P) + c) * K = 2 * (n * (P * K)) + c * K := by ring
      have g4 : c * (2 * (M * K) + P) < c * (2 * (P * K)) := by
        have : c * (2 * (M * K) + P) = 2 * (c * (M * K)) + c * P := by ring
        have : c * (2 * (P * K)) = 2 * (c * (P * K)) := by ring
        omega
      have g5 : 2 * (M * K) + P < 2 * (P * K) := Nat.lt_of_mul_lt_mul_left g4
      have g6 : 2 * ((h * P + M) * K) + P = 2 * (h * (P * K)) + (2 * (M * K) + P) := by ring
      have g7 : 2 * ((h + 1) * K * P) = 2 * (h * (P * K)) + 2 * (P * K) := by ring
      omega
    rw [e]
    have hdiv : m / K < h + 1 := (Nat.div_lt_iff_lt_mul hK).mpr hup
    rw [e] at hlow
    omega

theorem float64.round_natCast (a b : Nat) :
    float64.round (a : Int) b = ⟨((roundFloat64 a b).1 : Int), (roundFloat64 a b).2⟩ := by
  unfold float64.round
  by_cases ha : a = 0
  · subst ha
    simp [roundFloat64_zero]
  · have hs : Int.sign (a : Int) = 1 := Int.sign_eq_one_of_pos (by omega)
    rw [hs, Int.natAbs_ofNat, Int.one_mul]

theorem float64.round_neg (a : Int) (b : Nat) :
    float64.round (-a) b = (float64.round a b).neg := by
  unfold float64.round float64.neg
  rw [Int.sign_neg, Int.natAbs_neg, Int.neg_mul]

theorem float64.ofInt_natCast (x : Nat) (hx : x ≤ 2 ^ 53) : float64.ofInt (x : Int) = ⟨x, 0⟩ := by
  unfold float64.ofInt
  rw [Int.natAbs_ofNat, if_pos hx]

theorem float64.ofInt_neg (x : Int) : float64.ofInt (-x) = (float64.ofInt x).neg := by
  unfold float64.ofInt
  rw [Int.natAbs_neg]
  split
  · rfl
  · exact float64.round_neg x 1

theorem float64.div_neg (x y : float64) : float64.div x.neg y = (float64.div x y).neg := by
  unfold float64.div
  rw [← float64.round_neg]
  simp [float64.neg]

theorem float64.add_neg (x y : float64) :
    float64.add x.neg y.neg = (float64.add x y).neg := by
  unfold float64.add
  rw [← float64.round_neg]
  simp only [float64.neg]
  congr 1
  ring

theorem float64.toInt_neg (x : float64) : x.neg.toInt = -x.toInt := by
  unfold float64.toInt float64.neg
  exact Int.neg_tdiv _ _

theorem neg_tmod_eq (a b : Int) : Int.tmod (-a) b = -Int.tmod a b := by
  rw [Int.tmod_def, Int.tmod_def, Int.neg_tdiv]
  ring

/-- The sum of the parts is odd in the duration. -/
theorem fracSum_neg (d : Int) (c : Nat) : (fracSum (-d) c).toInt = -(fracSum d c).toInt := by
  unfold fracSum
  rw [Int.neg_tdiv, neg_tmod_eq, float64.ofInt_neg, float64.ofInt_neg, float64.div_neg,
    float64.add_neg, float64.toInt_neg]

/-- For a non-negative duration the truncated sum of the parts is `truncSum` of
the quotient and the remainder. -/
theorem fracSum_natCast (d c : Nat) (hc : 0 < c) (hc2 : c ≤ 2 ^ 53) (hd : d / c ≤ 2 ^ 53) :
    (fracSum (d : Int) c).toInt = (truncSum (d / c) (d % c) c : Nat) := by
  have hm : d % c ≤ 2 ^ 53 := Nat.le_of_lt (Nat.lt_of_lt_of_le (Nat.mod_lt d hc) hc2)
  have e1 : Int.tdiv (d : Int) (c : Int) = ((d / c : Nat) : Int) := (Int.ofNat_tdiv d c).symm
  have e2 : Int.tmod (d : Int) (c : Int) = ((d % c : Nat) : Int) := (Int.ofNat_tmod d c).symm
  unfold fracSum
  rw [e1, e2, float64.ofInt_natCast _ hd, float64.ofInt_natCast _ hm,
    float64.ofInt_natCast _ hc2]
  have e3 : float64.div ⟨((d % c : Nat) : Int), 0⟩ ⟨(c : Int), 0⟩
      = ⟨((roundFloat64 (d % c) c).1 : Int), (roundFloat64 (d % c) c).2⟩ := by
    unfold float64.div
    have hs : Int.sign (c : Int) = 1 := Int.sign_eq_one_of_pos (by omega)
    simp only [hs, Int.one_mul, Nat.pow_zero, Int.natAbs_ofNat, Nat.mul_one, pow_zero,
      Int.mul_one, mul_one]
    exact float64.round_natCast _ _
  rw [e3]
  unfold float64.add
  simp only [Nat.zero_le, max_eq_right, Nat.sub_zero, Nat.sub_self, pow_zero, mul_one]
  have e4 : ((d / c : Nat) : Int) * 2 ^ (roundFloat64 (d % c) c).2
        + ((roundFloat64 (d % c) c).1 : Int)
      = ((d / c * 2 ^ (roundFloat64 (d % c) c).2 + (roundFloat64 (d % c) c).1 : Nat) : Int) := by
    push_cast
    rfl
  rw [e4, float64.round_natCast]
  unfold float64.toInt truncSum
  simp only
  generalize (roundFloat64 (d / c * 2 ^ (roundFloat64 (d % c) c).2 + (roundFloat64 (d % c) c).1)
    (2 ^ (roundFloat64 (d % c) c).2)) = r
  have e5 : ((2 : Int) ^ r.2) = ((2 ^ r.2 : Nat) : Int) := by
    push_cast
    rfl
  rw [e5, ← Int.ofNat_tdiv]

theorem fracSum_eq_tdiv (d : Int) (c : Nat) (hc : 0 < c) (hc2 : c ≤ 2 ^ 53)
    (hd : d.natAbs / c ≤ 2 ^ 53)
    (hex : truncSum (d.natAbs / c) (d.natAbs % c) c = d.natAbs / c) :
    (fracSum d c).toInt = Int.tdiv d c := by
  rcases Int.natAbs_eq d with e | e
  · rw [e]
    rw [fracSum_natCast _ c hc hc2 hd, hex]
    exact Int.ofNat_tdiv _ _
  · rw [e, fracSum_neg, Int.neg_tdiv]
    rw [fracSum_natCast _ c hc hc2 hd, hex]
    rw [Int.ofNat_tdiv]

theorem fracSum_bounds_of_nonneg (d : Int) (c : Nat) (h0 : 0 ≤ d) (hc : 0 < c)
    (hc2 : c ≤ 2 ^ 53) (hd : d.natAbs / c + 1 ≤ 2 ^ 52) :
    d / (c : Int) ≤ (fracSum d c).toInt ∧ (fracSum d c).toInt ≤ d / (c : Int) + 1 := by
  obtain ⟨D, rfl⟩ := Int.eq_ofNat_of_zero_le h0
  rw [Int.natAbs_ofNat] at hd
  have h53 : (2 : Nat) ^ 52 ≤ 2 ^ 53 := by decide
  obtain ⟨b1, b2⟩ := truncSum_bounds (D / c) (D % c) c (Nat.mod_lt D hc) hd
  rw [fracSum_natCast D c hc hc2 (by omega)]
  have e : ((D : Int) / (c : Int)) = ((D / c : Nat) : Int) := rfl
  rw [e]
  constructor
  · exact_mod_cast b1
  · exact_mod_cast b2

theorem fracSum_bounds_of_nonpos (d : Int) (c : Nat) (h0 : d ≤ 0) (hc : 0 < c)
    (hc2 : c ≤ 2 ^ 53) (hd : d.natAbs / c + 1 ≤ 2 ^ 52) :
    -((-d) / (c : Int)) - 1 ≤ (fracSum d c).toInt ∧ (fracSum d c).toInt ≤ -((-d) / (c : Int)) := by
  have hn : (-d).natAbs / c + 1 ≤ 2 ^ 52 := by
    rw [Int.natAbs_neg]
    exact hd
  obtain ⟨b1, b2⟩ := fracSum_bounds_of_nonneg (-d) c (by omega) hc hc2 hn
  have e := fracSum_neg (-d) c
  rw [Int.neg_neg] at e
  rw [e]
  omega

theorem margin_hours_micro (n P K : Nat) (hn : n + 1000 ≤ 3600000000000) (hP : 2 ^ 53 ≤ P)
    (hK : 2 ^ 31 ≤ K) :
    3600000000000 * K + 3600000000000 * P + 2 * (n * (P * K)) < 2 * (3600000000000 * (P * K)) := by
  have h1 : 2 ^ 53 * K ≤ P * K := Nat.mul_le_mul_right K hP
  have h2 : 2 ^ 31 * P ≤ P * K := by
    rw [Nat.mul_comm P K]
    exact Nat.mul_le_mul_right P hK
  have h3 : (n + 1000) * (P * K) ≤ 3600000000000 * (P * K) := Nat.mul_le_mul_right _ hn
  rw [Nat.add_mul] at h3
  omega

theorem margin_minutes_micro (n P K : Nat) (hn : n + 1000 ≤ 60000000000) (hP : 2 ^ 53 ≤ P)
    (hK : 2 ^ 25 ≤ K) :
    60000000000 * K + 60000000000 * P + 2 * (n * (P * K)) < 2 * (60000000000 * (P * K)) := by
  have h1 : 2 ^ 53 * K ≤ P * K := Nat.mul_le_mul_right K hP
  have h2 : 2 ^ 25 * P ≤ P * K := by
    rw [Nat.mul_comm P K]
    exact Nat.mul_le_mul_right P hK
  have h3 : (n + 1000) * (P * K) ≤ 60000000000 * (P * K) := Nat.mul_le_mul_right _ hn
  rw [Nat.add_mul] at h3
  omega

theorem margin_seconds_micro (n P K : Nat) (hn : n + 1000 ≤ 1000000000) (hP : 2 ^ 53 ≤ P)
    (hK : 2 ^ 19 ≤ K) :
    1000000000 * K + 1000000000 * P + 2 * (n * (P * K)) < 2 * (1000000000 * (P * K)) := by
  have h1 : 2 ^ 53 * K ≤ P * K := Nat.mul_le_mul_right K hP
  have h2 : 2 ^ 19 * P ≤ P * K := by
    rw [Nat.mul_comm P K]
    exact Nat.mul_le_mul_right P hK
  have h3 : (n + 1000) * (P * K) ≤ 1000000000 * (P * K) := Nat.mul_le_mul_right _ hn
  rw [Nat.add_mul] at h3
  omega

theorem margin_hours_small (n P K : Nat) (hn : n + 1 ≤ 3600000000000) (hP : 2 ^ 53 ≤ P)
    (hK : 2 ^ 41 ≤ K) :
    3600000000000 * K + 3600000000000 * P + 2 * (n * (P * K)) < 2 * (3600000000000 * (P * K)) := by
  have h1 : 2 ^ 53 * K ≤ P * K := Nat.mul_le_mul_right K hP
  have h2 : 2 ^ 41 * P ≤ P * K := by
    rw [Nat.mul_comm P K]
    exact Nat.mul_le_mul_right P hK
  have h3 : (n + 1) * (P * K) ≤ 3600000000000 * (P * K) := Nat.mul_le_mul_right _ hn
  rw [Nat.add_mul] at h3
  omega

theorem margin_hours_edge (n P K : Nat) (hn : n + 2 ≤ 3600000000000) (hP : 2 ^ 53 ≤ P)
    (hK : 2 ^ 40 ≤ K) :
    3600000000000 * K + 3600000000000 * P + 2 * (n * (P * K)) < 2 * (3600000000000 * (P * K)) := by
  have h1 : 2 ^ 53 * K ≤ P * K := Nat.mul_le_mul_right K hP
  have h2 : 2 ^ 40 * P ≤ P * K := by
    rw [Nat.mul_comm P K]
    exact Nat.mul_le_mul_right P hK
  have h3 : (n + 2) * (P * K) ≤ 3600000000000 * (P * K) := Nat.mul_le_mul_right _ hn
  rw [Nat.add_mul] at h3
  omega

theorem margin_minutes_small (n P K : Nat) (hn : n + 1 ≤ 60000000000) (hP : 2 ^ 53 ≤ P)
    (hK : 2 ^ 35 ≤ K) :
    60000000000 * K + 60000000000 * P + 2 * (n * (P * K)) < 2 * (60000000000 * (P * K)) := by
  have h1 : 2 ^ 53 * K ≤ P * K := Nat.mul_le_mul_right K hP
  have h2 : 2 ^ 35 * P ≤ P * K := by
    rw [Nat.mul_comm P K]
    exact Nat.mul_le_mul_right P hK
  have h3 : (n + 1) * (P * K) ≤ 60000000000 * (P * K) := Nat.mul_le_mul_right _ hn
  rw [Nat.add_mul] at h3
  omega

theorem margin_seconds_small (n P K : Nat) (hn : n + 1 ≤ 1000000000) (hP : 2 ^ 53 ≤ P)
    (hK : 2 ^ 29 ≤ K) :
    1000000000 * K + 1000000000 * P + 2 * (n * (P * K)) < 2 * (1000000000 * (P * K)) := by
  have h1 : 2 ^ 53 * K ≤ P * K := Nat.mul_le_mul_right K hP
  have h2 : 2 ^ 29 * P ≤ P * K := by
    rw [Nat.mul_comm P K]
    exact Nat.mul_le_mul_right P hK
  have h3 : (n + 1) * (P * K) ≤ 1000000000 * (P * K) := Nat.mul_le_mul_right _ hn
  rw [Nat.add_mul] at h3
  omega

/-- The whole hours are exact below 4097 hours less one nanosecond and on whole
microseconds. -/
theorem truncSum_hours (D : Nat) (hD : D ≤ 9223372036854775808)
    (hdom : D < 14749199999999999 ∨ D % 1000 = 0) :
    truncSum (D / 3600000000000) (D % 3600000000000) 3600000000000 = D / 3600000000000 := by
  have hn : D % 3600000000000 < 3600000000000 := Nat.mod_lt D (by decide)
  rcases hdom with hs | hu
  · by_cases hh : D / 3600000000000 < 4096
    · exact truncSum_exact _ _ _ 41 hn (by omega) (by omega)
        (fun P K hP hK => margin_hours_small _ P K (by omega) hP hK)
    · exact truncSum_exact _ _ _ 40 hn (by omega) (by omega)
        (fun P K hP hK => margin_hours_edge _ P K (by omega) hP hK)
  · exact truncSum_exact _ _ _ 31 hn (by omega) (by omega)
      (fun P K hP hK => margin_hours_micro _ P K (by omega) hP hK)

/-- The whole minutes are exact on the same durations. -/
theorem truncSum_minutes (D : Nat) (hD : D ≤ 9223372036854775808)
    (hdom : D < 14749199999999999 ∨ D % 1000 = 0) :
    truncSum (D / 60000000000) (D % 60000000000) 60000000000 = D / 60000000000 := by
  have hn : D % 60000000000 < 60000000000 := Nat.mod_lt D (by decide)
  rcases hdom with hs | hu
  · exact truncSum_exact _ _ _ 35 hn (by omega) (by omega)
      (fun P K hP hK => margin_minutes_small _ P K (by omega) hP hK)
  · exact truncSum_exact _ _ _ 25 hn (by omega) (by omega)
      (fun P K hP hK => margin_minutes_micro _ P K (by omega) hP hK)

/-- The whole seconds are exact on the same durations. -/
theorem truncSum_seconds (D : Nat) (hD : D ≤ 9223372036854775808)
    (hdom : D < 14749199999999999 ∨ D % 1000 = 0) :
    truncSum (D / 1000000000) (D % 1000000000) 1000000000 = D / 1000000000 := by
  have hn : D % 1000000000 < 1000000000 := Nat.mod_lt D (by decide)
  rcases hdom with hs | hu
  · exact truncSum_exact _ _ _ 29 hn (by omega) (by omega)
      (fun P K hP hK => margin_seconds_small _ P K (by omega) hP hK)
  · exact truncSum_exact _ _ _ 19 hn (by omega) (by omega)
      (fun P K hP hK => margin_seconds_micro _ P K (by omega) hP hK)

theorem natAbs_le_of_isInt64 (d : Int) (h : isInt64 d) : d.natAbs ≤ 9223372036854775808 := by
  unfold isInt64 at h
  omega

theorem natAbs_mod_of_emod (d : Int) (h : d % 1000 = 0) : d.natAbs % 1000 = 0 := by
  omega

/-- The three conversions are exact for every 64-bit duration of magnitude below
4097 hours less one nanosecond and for every whole number of microseconds. -/
theorem floatExact_of_domain (d : Int) (h : isInt64 d)
    (hdom : d.natAbs < 14749199999999999 ∨ d % 1000 = 0) : floatExact d := by
  have hD := natAbs_le_of_isInt64 d h
  have hdom2 : d.natAbs < 14749199999999999 ∨ d.natAbs % 1000 = 0 := by
    rcases hdom with h1 | h2
    · exact Or.inl h1
    · exact Or.inr (natAbs_mod_of_emod d h2)
  refine ⟨?_, ?_, ?_⟩
  · exact fracSum_eq_tdiv d 3600000000000 (by decide) (by decide) (by omega)
      (truncSum_hours _ hD hdom2)
  · exact fracSum_eq_tdiv d 60000000000 (by decide) (by decide) (by omega)
      (truncSum_minutes _ hD hdom2)
  · exact fracSum_eq_tdiv d 1000000000 (by decide) (by decide) (by omega)
      (truncSum_seconds _ hD hdom2)

/-! ## Arithmetic lemmas -/

theorem tdiv_of_nonneg (a b : Int) (ha : 0 ≤ a) (hb : 0 ≤ b) : Int.tdiv a b = a / b :=
  Int.tdiv_eq_ediv ha hb

theorem tdiv_of_nonpos (a b : Int) (ha : a ≤ 0) (hb : 0 ≤ b) :
    Int.tdiv a b = -((-a) / b) := by
  have h := @Int.tdiv_eq_ediv (-a) b (by omega) hb
  rw [Int.neg_tdiv] at h
  omega

theorem tmod_of_nonneg (a b : Int) (ha : 0 ≤ a) (hb : 0 ≤ b) : Int.tmod a b = a % b :=
  Int.tmod_eq_emod ha hb

theorem tmod_of_nonpos (a b : Int) (ha : a ≤ 0) (hb : 0 ≤ b) :
    Int.tmod a b = -((-a) % b) := by
  rw [Int.tmod_def, tdiv_of_nonpos a b ha hb, Int.emod_def]
  have e : b * -(-a / b) = -(b * (-a / b)) := by
    rw [Int.mul_neg]
  omega

theorem wrapInt_of_isInt64 (x : Int) (h : isInt64 x) : wrapInt x = x := by
  unfold isInt64 at h
  unfold wrapInt
  omega

/-- The five components of a non-negative duration on which the conversions are
exact, without machine wrap. -/
theorem components_of_nonneg (d : Int) (h0 : 0 ≤ d) (h : isInt64 d) (hex : floatExact d) :
    days d = d / 86400000000000 ∧ hours d = d / 3600000000000 % 24 ∧
    minutes d = d / 60000000000 % 60 ∧ seconds d = d / 1000000000 % 60 ∧
    milliPlusOne d = d / 1000 % 1000000 := by
  unfold isInt64 at h
  have e1 : refHours d = d / 3600000000000 := by
    unfold refHours
    rw [hex.1, tdiv_of_nonneg d _ h0 (by decide)]
    unfold wrapInt
    omega
  have e2 : refMinutes d = d / 60000000000 := by
    unfold refMinutes
    rw [hex.2.1, tdiv_of_nonneg d _ h0 (by decide)]
    unfold wrapInt
    omega
  have e3 : refSeconds d = d / 1000000000 := by
    unfold refSeconds
    rw [hex.2.2, tdiv_of_nonneg d _ h0 (by decide)]
    unfold wrapInt
    omega
  have e4 : refMilliPlusOne d = d / 1000 := by
    unfold refMilliPlusOne Duration.Nanoseconds
    rw [tdiv_of_nonneg d _ h0 (by decide)]
    unfold wrapInt
    omega
  have e5 : days d = d / 86400000000000 := by
    unfold days
    rw [e1, tdiv_of_nonneg _ _ (by omega) (by decide)]
    unfold wrapInt
    omega
  refine ⟨e5, ?_, ?_, ?_, ?_⟩
  · unfold hours
    rw [e1, e5]
    unfold wrapInt
    omega
  · unfold minutes
    rw [e1, e2]
    unfold wrapInt
    omega
  · unfold seconds
    rw [e2, e3]
    unfold wrapInt
    omega
  · unfold milliPlusOne
    rw [e3, e4]
    unfold wrapInt
    omega

/-- The five components of a non-positive duration on which the conversions are
exact, without machine wrap: each is the negation of a quotient or remainder of
the magnitude. -/
theorem components_of_nonpos (d : Int) (h0 : d ≤ 0) (h : isInt64 d) (hex : floatExact d) :
    days d = -((-d) / 86400000000000) ∧ hours d = -((-d) / 3600000000000 % 24) ∧
    minutes d = -((-d) / 60000000000 % 60) ∧ seconds d = -((-d) / 1000000000 % 60) ∧
    milliPlusOne d = -((-d) / 1000 % 1000000) := by
  unfold isInt64 at h
  have e1 : refHours d = -((-d) / 3600000000000) := by
    unfold refHours
    rw [hex.1, tdiv_of_nonpos d _ h0 (by decide)]
    unfold wrapInt
    omega
  have e2 : refMinutes d = -((-d) / 60000000000) := by
    unfold refMinutes
    rw [hex.2.1, tdiv_of_nonpos d _ h0 (by decide)]
    unfold wrapInt
    omega
  have e3 : refSeconds d = -((-d) / 1000000000) := by
    unfold refSeconds
    rw [hex.2.2, tdiv_of_nonpos d _ h0 (by decide)]
    unfold wrapInt
    omega
  have e4 : refMilliPlusOne d = -((-d) / 1000) := by
    unfold refMilliPlusOne Duration.Nanoseconds
    rw [tdiv_of_nonpos d _ h0 (by decide)]
    unfold wrapInt
    omega
  have e5 : days d = -((-d) / 86400000000000) := by
    unfold days
    rw [e1, tdiv_of_nonpos _ _ (by omega) (by decide)]
    unfold wrapInt
    omega
  refine ⟨e5, ?_, ?_, ?_, ?_⟩
  · unfold hours
    rw [e1, e5]
    unfold wrapInt
    omega
  · unfold minutes
    rw [e1, e2]
    unfold wrapInt
    omega
  · unfold seconds
    rw [e2, e3]
    unfold wrapInt
    omega
  · unfold milliPlusOne
    rw [e3, e4]
    unfold wrapInt
    omega

/-! ## The conversions in general -/

/-- The three conversions stay within one unit of the quotient in magnitude, for
every 64-bit duration. -/
theorem toInt_bounds (d : Int) (h : isInt64 d) :
    (-2562048 ≤ (Duration.Hours d).toInt ∧ (Duration.Hours d).toInt ≤ 2562048) ∧
    (-153722868 ≤ (Duration.Minutes d).toInt ∧ (Duration.Minutes d).toInt ≤ 153722868) ∧
    (-9223372037 ≤ (Duration.Seconds d).toInt ∧ (Duration.Seconds d).toInt ≤ 9223372037) := by
  have hD := natAbs_le_of_isInt64 d h
  unfold isInt64 at h
  rcases Int.le_total 0 d with h0 | h0
  · have b1 := fracSum_bounds_of_nonneg d 3600000000000 h0 (by decide) (by decide) (by omega)
    have b2 := fracSum_bounds_of_nonneg d 60000000000 h0 (by decide) (by decide) (by omega)
    have b3 := fracSum_bounds_of_nonneg d 1000000000 h0 (by decide) (by decide) (by omega)
    have e1 : (fracSum d 3600000000000).toInt = (Duration.Hours d).toInt := rfl
    have e2 : (fracSum d 60000000000).toInt = (Duration.Minutes d).toInt := rfl
    have e3 : (fracSum d 1000000000).toInt = (Duration.Seconds d).toInt := rfl
    rw [e1] at b1
    rw [e2] at b2
    rw [e3] at b3
    push_cast at b1 b2 b3
    omega
  · have b1 := fracSum_bounds_of_nonpos d 3600000000000 h0 (by decide) (by decide) (by omega)
    have b2 := fracSum_bounds_of_nonpos d 60000000000 h0 (by decide) (by decide) (by omega)
    have b3 := fracSum_bounds_of_nonpos d 1000000000 h0 (by decide) (by decide) (by omega)
    have e1 : (fracSum d 3600000000000).toInt = (Duration.Hours d).toInt := rfl
    have e2 : (fracSum d 60000000000).toInt = (Duration.Minutes d).toInt := rfl
    have e3 : (fracSum d 1000000000).toInt = (Duration.Seconds d).toInt := rfl
    rw [e1] at b1
    rw [e2] at b2
    rw [e3] at b3
    push_cast at b1 b2 b3
    omega

/-- The locals `refHours`, `refMinutes`, `refSeconds` are the conversions
themselves: no wrap occurs. -/
theorem refs_eq_toInt (d : Int) (h : isInt64 d) :
    refHours d = (Duration.Hours d).toInt ∧ refMinutes d = (Duration.Minutes d).toInt ∧
    refSeconds d = (Duration.Seconds d).toInt := by
  obtain ⟨b1, b2, b3⟩ := toInt_bounds d h
  refine ⟨?_, ?_, ?_⟩
  · unfold refHours wrapInt
    omega
  · unfold refMinutes wrapInt
    omega
  · unfold refSeconds wrapInt
    omega

/-- The locals of a non-negative duration: each conversion is the quotient or
one more. -/
theorem refs_of_nonneg (d : Int) (h0 : 0 ≤ d) (h : isInt64 d) :
    (d / 3600000000000 ≤ refHours d ∧ refHours d ≤ d / 3600000000000 + 1) ∧
    (d / 60000000000 ≤ refMinutes d ∧ refMinutes d ≤ d / 60000000000 + 1) ∧
    (d / 1000000000 ≤ refSeconds d ∧ refSeconds d ≤ d / 1000000000 + 1) ∧
    refMilliPlusOne d = d / 1000 := by
  have hD := natAbs_le_of_isInt64 d h
  obtain ⟨r1, r2, r3⟩ := refs_eq_toInt d h
  have b1 := fracSum_bounds_of_nonneg d 3600000000000 h0 (by decide) (by decide) (by omega)
  have b2 := fracSum_bounds_of_nonneg d 60000000000 h0 (by decide) (by decide) (by omega)
  have b3 := fracSum_bounds_of_nonneg d 1000000000 h0 (by decide) (by decide) (by omega)
  have e1 : (fracSum d 3600000000000).toInt = (Duration.Hours d).toInt := rfl
  have e2 : (fracSum d 60000000000).toInt = (Duration.Minutes d).toInt := rfl
  have e3 : (fracSum d 1000000000).toInt = (Duration.Seconds d).toInt := rfl
  rw [e1, ← r1] at b1
  rw [e2, ← r2] at b2
  rw [e3, ← r3] at b3
  push_cast at b1 b2 b3
  have e4 : refMilliPlusOne d = d / 1000 := by
    unfold refMilliPlusOne Duration.Nanoseconds
    rw [tdiv_of_nonneg d _ h0 (by decide)]
    unfold isInt64 at h
    unfold wrapInt
    omega
  exact ⟨b1, b2, b3, e4⟩

/-- The locals of a non-positive duration. -/
theorem refs_of_nonpos (d : Int) (h0 : d ≤ 0) (h : isInt64 d) :
    (-((-d) / 3600000000000) - 1 ≤ refHours d ∧ refHours d ≤ -((-d) / 3600000000000)) ∧
    (-((-d) / 60000000000) - 1 ≤ refMinutes d ∧ refMinutes d ≤ -((-d) / 60000000000)) ∧
    (-((-d) / 1000000000) - 1 ≤ refSeconds d ∧ refSeconds d ≤ -((-d) / 1000000000)) ∧
    refMilliPlusOne d = -((-d) / 1000) := by
  have hD := natAbs_le_of_isInt64 d h
  obtain ⟨r1, r2, r3⟩ := refs_eq_toInt d h
  have b1 := fracSum_bounds_of_nonpos d 3600000000000 h0 (by decide) (by decide) (by omega)
  have b2 := fracSum_bounds_of_nonpos d 60000000000 h0 (by decide) (by decide) (by omega)
  have b3 := fracSum_bounds_of_nonpos d 1000000000 h0 (by decide) (by decide) (by omega)
  have e1 : (fracSum d 3600000000000).toInt = (Duration.Hours d).toInt := rfl
  have e2 : (fracSum d 60000000000).toInt = (Duration.Minutes d).toInt := rfl
  have e3 : (fracSum d 1000000000).toInt = (Duration.Seconds d).toInt := rfl
  rw [e1, ← r1] at b1
  rw [e2, ← r2] at b2
  rw [e3, ← r3] at b3
  push_cast at b1 b2 b3
  have e4 : refMilliPlusOne d = -((-d) / 1000) := by
    unfold refMilliPlusOne Duration.Nanoseconds
    rw [tdiv_of_nonpos d _ h0 (by decide)]
    unfold isInt64 at h
    unfold wrapInt
    omega
  exact ⟨b1, b2, b3, e4⟩

/-- The components of a non-negative duration from the locals, without machine
wrap, whatever the conversions return. -/
theorem components_refs_of_nonneg (d : Int) (h0 : 0 ≤ d) (h : isInt64 d) :
    days d = refHours d / 24 ∧ hours d = refHours d % 24 ∧
    minutes d = refMinutes d - refHours d * 60 ∧
    seconds d = refSeconds d - refMinutes d * 60 ∧
    milliPlusOne d = d / 1000 - refSeconds d * 1000000 := by
  obtain ⟨b1, b2, b3, e4⟩ := refs_of_nonneg d h0 h
  unfold isInt64 at h
  have e5 : days d = refHours d / 24 := by
    unfold days
    rw [tdiv_of_nonneg _ _ (by omega) (by decide)]
    unfold wrapInt
    omega
  refine ⟨e5, ?_, ?_, ?_, ?_⟩
  · unfold hours
    rw [e5]
    unfold wrapInt
    omega
  · unfold minutes wrapInt
    omega
  · unfold seconds wrapInt
    omega
  · unfold milliPlusOne
    rw [e4]
    unfold wrapInt
    omega

/-- The components of a non-positive duration from the locals, without machine
wrap, whatever the conversions return. -/
theorem components_refs_of_nonpos (d : Int) (h0 : d ≤ 0) (h : isInt64 d) :
    days d = -((-refHours d) / 24) ∧ hours d = -((-refHours d) % 24) ∧
    minutes d = refMinutes d - refHours d * 60 ∧
    seconds d = refSeconds d - refMinutes d * 60 ∧
    milliPlusOne d = -((-d) / 1000) - refSeconds d * 1000000 := by
  obtain ⟨b1, b2, b3, e4⟩ := refs_of_nonpos d h0 h
  unfold isInt64 at h
  have e5 : days d = -((-refHours d) / 24) := by
    unfold days
    rw [tdiv_of_nonpos _ _ (by omega) (by decide)]
    unfold wrapInt
    omega
  refine ⟨e5, ?_, ?_, ?_, ?_⟩
  · unfold hours
    rw [e5]
    unfold wrapInt
    omega
  · unfold minutes wrapInt
    omega
  · unfold seconds wrapInt
    omega
  · unfold milliPlusOne
    rw [e4]
    unfold wrapInt
    omega

/-- The locals of the opposite duration are the opposite locals. -/
theorem refs_neg (d : Int) (h : isInt64 d) (hn : isInt64 (-d)) :
    refHours (-d) = -refHours d ∧ refMinutes (-d) = -refMinutes d ∧
    refSeconds (-d) = -refSeconds d := by
  obtain ⟨r1, r2, r3⟩ := refs_eq_toInt d h
  obtain ⟨n1, n2, n3⟩ := refs_eq_toInt (-d) hn
  have e1 : (Duration.Hours (-d)).toInt = -(Duration.Hours d).toInt :=
    fracSum_neg d 3600000000000
  have e2 : (Duration.Minutes (-d)).toInt = -(Duration.Minutes d).toInt :=
    fracSum_neg d 60000000000
  have e3 : (Duration.Seconds (-d)).toInt = -(Duration.Seconds d).toInt :=
    fracSum_neg d 1000000000
  rw [n1, n2, n3, e1, e2, e3, r1, r2, r3]
  exact ⟨rfl, rfl, rfl⟩

/-! ## Lemmas on the integer formatting -/

theorem fmtDigits_eq_toDigitsCore (fuel : Nat) :
    ∀ (u : Nat) (buf : List Char), u ≤ fuel →
      fmtDigits fuel u buf = Nat.toDigitsCore 10 (fuel + 1) u buf := by
  induction fuel with
  | zero =>
    intro u buf h
    have hu : u = 0 := by omega
    subst hu
    simp [fmtDigits, Nat.toDigitsCore]
  | succ fuel ih =>
    intro u buf h
    by_cases h10 : 10 ≤ u
    · have hq : u / 10 ≠ 0 := by omega
      have hr : u - u / 10 * 10 = u % 10 := by omega
      rw [fmtDigits, if_pos h10, ih (u / 10) _ (by omega), hr]
      conv => rhs; rw [Nat.toDigitsCore]
      simp [hq]
    · have hq : u / 10 = 0 := by omega
      have hr : u % 10 = u := by omega
      rw [fmtDigits, if_neg h10]
      conv => rhs; rw [Nat.toDigitsCore]
      simp [hq, hr]

/-- The digit loop, run on `u` with `u` iterations allowed, is the standard
decimal rendering of `u`. -/
theorem fmtDigits_eq_toDigits (u : Nat) : fmtDigits u u [] = Nat.toDigits 10 u := by
  rw [fmtDigits_eq_toDigitsCore u u [] (Nat.le_refl u)]
  rfl

theorem fmtDigits_eq_digits (fuel : Nat) :
    ∀ (u : Nat) (buf : List Char), 0 < u → u ≤ fuel →
      fmtDigits fuel u buf = ((Nat.digits 10 u).reverse.map Nat.digitChar) ++ buf := by
  induction fuel with
  | zero =>
    intro u buf h0 h
    omega
  | succ fuel ih =>
    intro u buf h0 h
    by_cases h10 : 10 ≤ u
    · have hr : u - u / 10 * 10 = u % 10 := by omega
      rw [fmtDigits, if_pos h10, ih (u / 10) _ (by omega) (by omega), hr,
        Nat.digits_def' (by decide : 1 < 10) h0]
      simp
    · rw [fmtDigits, if_neg h10, Nat.digits_of_lt 10 u (by omega) (by omega)]
      simp

theorem fmtDigits_zero : fmtDigits 0 0 [] = ['0'] := by
  decide

theorem digits_length_le_iff (u k : Nat) (hu : u ≠ 0) :
    (Nat.digits 10 u).length ≤ k ↔ u < 10 ^ k := by
  constructor
  · intro hle
    calc u < 10 ^ (Nat.digits 10 u).length := Nat.lt_base_pow_length_digits (by decide)
      _ ≤ 10 ^ k := Nat.pow_le_pow_right (by decide) hle
  · intro hlt
    by_contra hcon
    have hk : k + 1 ≤ (Nat.digits 10 u).length := by omega
    have h1 : 10 ^ (k + 1) ≤ 10 ^ (Nat.digits 10 u).length :=
      Nat.pow_le_pow_right (by decide) hk
    have h2 : 10 ^ (Nat.digits 10 u).length ≤ 10 * u :=
      Nat.base_pow_length_digits_le 10 u (by decide) hu
    have h3 : 10 ^ (k + 1) = 10 * 10 ^ k := by
      rw [Nat.pow_succ, Nat.mul_comm]
    omega

/-- The number of digits the loop writes: at most `k` exactly when `u < 10 ^ k`
(for `k` at least one, zero being written as one digit). -/
theorem fmtDigits_length_le_iff (u k : Nat) (hk : 0 < k) :
    (fmtDigits u u []).length ≤ k ↔ u < 10 ^ k := by
  by_cases hu : u = 0
  · subst hu
    rw [fmtDigits_zero]
    have hp : 0 < 10 ^ k := Nat.pow_pos (by decide)
    simp only [List.length_singleton]
    omega
  · rw [fmtDigits_eq_digits u u [] (by omega) (Nat.le_refl u)]
    simp only [List.append_nil, List.length_map, List.length_reverse]
    exact digits_length_le_iff u k hu

theorem fmtDigits_length_pos (u : Nat) : 0 < (fmtDigits u u []).length := by
  by_cases hu : u = 0
  · subst hu
    rw [fmtDigits_zero]
    decide
  · have h := (fmtDigits_length_le_iff u 1 (by decide)).not
    by_contra hcon
    have h0 : (fmtDigits u u []).length = 0 := by omega
    rw [fmtDigits_eq_digits u u [] (by omega) (Nat.le_refl u)] at h0
    simp only [List.append_nil, List.length_map, List.length_reverse,
      List.length_eq_zero] at h0
    exact hu (Nat.digits_eq_nil_iff_eq_zero.mp h0)

theorem digitChar_isDigit (n : Nat) (h : n < 10) : (Nat.digitChar n).isDigit = true := by
  interval_cases n <;> decide

/-- Every character the digit loop writes is a decimal digit. -/
theorem fmtDigits_isDigit (u : Nat) : ∀ c ∈ fmtDigits u u [], c.isDigit = true := by
  by_cases hu : u = 0
  · subst hu
    rw [fmtDigits_zero]
    decide
  · rw [fmtDigits_eq_digits u u [] (by omega) (Nat.le_refl u)]
    intro c hc
    simp only [List.append_nil, List.mem_map, List.mem_reverse] at hc
    obtain ⟨n, hn, rfl⟩ := hc
    exact digitChar_isDigit n (Nat.digits_lt_base (by decide) hn)

/-- For a non-negative argument `%0wd` is the zero-padded decimal rendering. -/
theorem fmtInteger_of_nat (w n : Nat) : fmtInteger w (n : Int) = zeroPadded w n := by
  have hneg : ¬ ((n : Int) < 0) := by omega
  simp [fmtInteger, zeroPadded, List.leftpad, hneg, fmtDigits_eq_toDigits]

/-- Width of a non-negative field: exactly `w` characters when the number is
below `10 ^ w`. -/
theorem fmtInteger_length_of_lt (w n : Nat) (hw : 0 < w) (h : n < 10 ^ w) :
    (fmtInteger w (n : Int)).length = w := by
  have hneg : ¬ ((n : Int) < 0) := by omega
  have hl := (fmtDigits_length_le_iff n w hw).mpr h
  simp [fmtInteger, hneg]
  omega

/-- Width of a non-negative field: more than `w` characters when the number is
at least `10 ^ w`. -/
theorem fmtInteger_length_of_ge (w n : Nat) (hw : 0 < w) (h : 10 ^ w ≤ n) :
    w < (fmtInteger w (n : Int)).length := by
  have hneg : ¬ ((n : Int) < 0) := by omega
  have hl := (fmtDigits_length_le_iff n w hw).not.mpr (by omega)
  simp [fmtInteger, hneg]
  omega

/-- A non-negative field holds decimal digits only. -/
theorem fmtInteger_isDigit (w n : Nat) : ∀ c ∈ fmtInteger w (n : Int), c.isDigit = true := by
  have hneg : ¬ ((n : Int) < 0) := by omega
  intro c hc
  simp only [fmtInteger, hneg, decide_False, Bool.false_eq_true, if_false,
    Int.natAbs_ofNat, List.mem_append, List.mem_replicate] at hc
  rcases hc with ⟨_, rfl⟩ | hc
  · decide
  · exact fmtDigits_isDigit n c hc

/-- A non-negative field below `10 ^ w` is exactly `w` decimal digits. -/
theorem fmtInteger_fixed (w : Nat) (x : Int) (hw : 0 < w) (h0 : 0 ≤ x) (h : x < 10 ^ w) :
    (fmtInteger w x).length = w ∧ ∀ c ∈ fmtInteger w x, c.isDigit = true := by
  obtain ⟨n, rfl⟩ := Int.eq_ofNat_of_zero_le h0
  have hn : n < 10 ^ w := by exact_mod_cast h
  exact ⟨fmtInteger_length_of_lt w n hw hn, fmtInteger_isDigit w n⟩

/-- The payload of `NewRequestTelemetry` carries the formatted duration. -/
theorem NewRequestTelemetry_Duration (name : String) (t0 : Time) (duration : Duration)
    (responseCode : String) (success : Bool) (w : World) :
    (NewRequestTelemetry name t0 duration responseCode success w).1.data.Duration
      = durationString duration := rfl

theorem durationOf_nonneg (d h m s u : Nat) : (0 : Int) ≤ durationOf d h m s u := by
  unfold durationOf
  omega

/-- A duration put together from its parts is a whole number of microseconds. -/
theorem durationOf_micro (d h m s u : Nat) : durationOf d h m s u % 1000 = 0 := by
  unfold durationOf
  omega

/-- Quotients and remainders of a duration put together from its parts. -/
theorem durationOf_split (d h m s u : Nat) (hh : h < 24) (hm : m < 60)
    (hs : s < 60) (hu : u < 1000000) :
    durationOf d h m s u / 86400000000000 = d ∧
    durationOf d h m s u / 3600000000000 % 24 = h ∧
    durationOf d h m s u / 60000000000 % 60 = m ∧
    durationOf d h m s u / 1000000000 % 60 = s ∧
    durationOf d h m s u / 1000 % 1000000 = u := by
  unfold durationOf
  refine ⟨?_, ?_, ?_, ?_, ?_⟩ <;> omega

/-- The modulo-based components of a non-negative duration. -/
theorem moduloComponents_of_nonneg (d : Int) (h0 : 0 ≤ d) :
    moduloComponents (Int.tdiv d 3600000000000) (Int.tdiv d 60000000000)
      (Int.tdiv d 1000000000) (Int.tdiv d 1000)
    = (d / 86400000000000, d / 3600000000000 % 24, d / 60000000000 % 60,
        d / 1000000000 % 60, d / 1000 % 1000000) := by
  have q1 : (0 : Int) ≤ d / 3600000000000 := by omega
  have q2 : (0 : Int) ≤ d / 60000000000 := by omega
  have q3 : (0 : Int) ≤ d / 1000000000 := by omega
  have q4 : (0 : Int) ≤ d / 1000 := by omega
  unfold moduloComponents
  rw [tdiv_of_nonneg d 3600000000000 h0 (by decide),
    tdiv_of_nonneg d 60000000000 h0 (by decide),
    tdiv_of_nonneg d 1000000000 h0 (by decide),
    tdiv_of_nonneg d 1000 h0 (by decide),
    tdiv_of_nonneg _ 86400000000 q4 (by decide),
    tmod_of_nonneg _ 24 q1 (by decide), tmod_of_nonneg _ 60 q2 (by decide),
    tmod_of_nonneg _ 60 q3 (by decide), tmod_of_nonneg _ 1000000 q4 (by decide)]
  have e : d / 1000 / 86400000000 = d / 86400000000000 := by omega
  rw [e]

/-- The modulo-based components of a non-positive duration. -/
theorem moduloComponents_of_nonpos (d : Int) (h0 : d ≤ 0) :
    moduloComponents (Int.tdiv d 3600000000000) (Int.tdiv d 60000000000)
      (Int.tdiv d 1000000000) (Int.tdiv d 1000)
    = (-((-d) / 86400000000000), -((-d) / 3600000000000 % 24), -((-d) / 60000000000 % 60),
        -((-d) / 1000000000 % 60), -((-d) / 1000 % 1000000)) := by
  have q1 : -((-d) / 3600000000000) ≤ (0 : Int) := by omega
  have q2 : -((-d) / 60000000000) ≤ (0 : Int) := by omega
  have q3 : -((-d) / 1000000000) ≤ (0 : Int) := by omega
  have q4 : -((-d) / 1000) ≤ (0 : Int) := by omega
  unfold moduloComponents
  rw [tdiv_of_nonpos d 3600000000000 h0 (by decide),
    tdiv_of_nonpos d 60000000000 h0 (by decide),
    tdiv_of_nonpos d 1000000000 h0 (by decide),
    tdiv_of_nonpos d 1000 h0 (by decide),
    tdiv_of_nonpos _ 86400000000 q4 (by decide),
    tmod_of_nonpos _ 24 q1 (by decide), tmod_of_nonpos _ 60 q2 (by decide),
    tmod_of_nonpos _ 60 q3 (by decide), tmod_of_nonpos _ 1000000 q4 (by decide)]
  simp only [Int.neg_neg]
  have e : (-d) / 1000 / 86400000000 = (-d) / 86400000000000 := by omega
  rw [e]

/-- The components the source computes are the modulo-based ones. -/
theorem components_eq_modulo (d : Int) (h : isInt64 d) (hex : floatExact d) :
    (days d, hours d, minutes d, seconds d, milliPlusOne d)
      = moduloComponents (Int.tdiv d 3600000000000) (Int.tdiv d 60000000000)
          (Int.tdiv d 1000000000) (Int.tdiv d 1000) := by
  rcases Int.le_total 0 d with h0 | h0
  · obtain ⟨c1, c2, c3, c4, c5⟩ := components_of_nonneg d h0 h hex
    rw [moduloComponents_of_nonneg d h0, c1, c2, c3, c4, c5]
  · obtain ⟨c1, c2, c3, c4, c5⟩ := components_of_nonpos d h0 h hex
    rw [moduloComponents_of_nonpos d h0, c1, c2, c3, c4, c5]

/-- Minutes and seconds of the microsecond count: the remainders taken from the
whole minutes and seconds are those taken from the microseconds. -/
theorem tmod_of_micro (d : Int) :
    Int.tmod (Int.tdiv d 60000000000) 60 = Int.tmod (Int.tdiv (Int.tdiv d 1000) 60000000) 60 ∧
    Int.tmod (Int.tdiv d 1000000000) 60 = Int.tmod (Int.tdiv (Int.tdiv d 1000) 1000000) 60 := by
  rcases Int.le_total 0 d with h0 | h0
  · have q4 : (0 : Int) ≤ d / 1000 := by omega
    rw [tdiv_of_nonneg d 60000000000 h0 (by decide),
      tdiv_of_nonneg d 1000000000 h0 (by decide),
      tdiv_of_nonneg d 1000 h0 (by decide),
      tdiv_of_nonneg _ 60000000 q4 (by decide), tdiv_of_nonneg _ 1000000 q4 (by decide)]
    have e1 : d / 1000 / 60000000 = d / 60000000000 := by omega
    have e2 : d / 1000 / 1000000 = d / 1000000000 := by omega
    rw [e1, e2]
    exact ⟨rfl, rfl⟩
  · have q4 : -((-d) / 1000) ≤ (0 : Int) := by omega
    rw [tdiv_of_nonpos d 60000000000 h0 (by decide),
      tdiv_of_nonpos d 1000000000 h0 (by decide),
      tdiv_of_nonpos d 1000 h0 (by decide),
      tdiv_of_nonpos _ 60000000 q4 (by decide), tdiv_of_nonpos _ 1000000 q4 (by decide)]
    simp only [Int.neg_neg]
    have e1 : (-d) / 1000 / 60000000 = (-d) / 60000000000 := by omega
    have e2 : (-d) / 1000 / 1000000 = (-d) / 1000000000 := by omega
    rw [e1, e2]
    exact ⟨rfl, rfl⟩

/-! ## Lemmas on the constructors -/

/-- The metric constructor never panics; its result in closed form. -/
theorem NewMetricTelemetry_eq (name : String) (value : float32) (w : World) :
    NewMetricTelemetry name value w =
      some ({ timestamp := (timeNow w).1
              context := (NewItemTelemetryContext (timeNow w).2).1
              data := { Ver := 2, Metrics := [some { Name := name, Value := value, Count := 1 }] } },
            (NewItemTelemetryContext (timeNow w).2).2) := rfl

/-- Every call returns a record; its context is the one the factory allocates
at the count of contexts before the call, and the count goes up by one. -/
theorem Call.run_context (c : Call) (w : World) :
    ∃ t w', c.run w = some (t, w') ∧ t.Context = TelemetryContext.ref w.contexts ∧
      w'.contexts = w.contexts + 1 := by
  cases c with
  | trace message severityLevel => exact ⟨_, _, rfl, rfl, rfl⟩
  | event name => exact ⟨_, _, rfl, rfl, rfl⟩
  | metric name value => exact ⟨_, _, rfl, rfl, rfl⟩
  | request name timestamp duration responseCode success => exact ⟨_, _, rfl, rfl, rfl⟩

/-- A sequence of calls returns one record per call, and the contexts of the
records are the references allocated from the count before the first call on. -/
theorem runCalls_contexts (cs : List Call) :
    ∀ w : World, ∃ ts w', runCalls cs w = some (ts, w') ∧
      ts.map Telemetry.Context
        = (List.range' w.contexts cs.length).map TelemetryContext.ref ∧
      w'.contexts = w.contexts + cs.length := by
  induction cs with
  | nil =>
    intro w
    exact ⟨[], w, rfl, rfl, rfl⟩
  | cons c cs ih =>
    intro w
    obtain ⟨t, w1, h1, h2, h3⟩ := Call.run_context c w
    obtain ⟨ts, w2, g1, g2, g3⟩ := ih w1
    refine ⟨t :: ts, w2, ?_, ?_, ?_⟩
    · simp [runCalls, h1, g1]
    · simp [List.range', h2, g2, h3]
    · simp [g3, h3]
      omega

theorem ref_injective : Function.Injective TelemetryContext.ref := by
  intro a b h
  cases h
  rfl

/-! ## Lemmas for the recomposition and the ranges -/

/-- Quotients and remainders of a count put back together. -/
theorem recompose_of_nonneg (x : Int) :
    x / 86400000000000 * 86400000000 + x / 3600000000000 % 24 * 3600000000
      + x / 60000000000 % 60 * 60000000 + x / 1000000000 % 60 * 1000000
      + x / 1000 % 1000000 = x / 1000 := by
  omega

/-- The components of a non-negative duration are functions of its microsecond
count. -/
theorem components_of_micro (d : Int) (h0 : 0 ≤ d) (h : isInt64 d) (hex : floatExact d) :
    days d = d / 1000 / 86400000000 ∧ hours d = d / 1000 / 3600000000 % 24 ∧
    minutes d = d / 1000 / 60000000 % 60 ∧ seconds d = d / 1000 / 1000000 % 60 ∧
    milliPlusOne d = d / 1000 % 1000000 := by
  obtain ⟨c1, c2, c3, c4, c5⟩ := components_of_nonneg d h0 h hex
  have a1 : d / 86400000000000 = d / 1000 / 86400000000 := by
    clear c1 c2 c3 c4 c5 h
    omega
  have a2 : d / 3600000000000 = d / 1000 / 3600000000 := by
    clear c1 c2 c3 c4 c5 h
    omega
  have a3 : d / 60000000000 = d / 1000 / 60000000 := by
    clear c1 c2 c3 c4 c5 h
    omega
  have a4 : d / 1000000000 = d / 1000 / 1000000 := by
    clear c1 c2 c3 c4 c5 h
    omega
  rw [a1] at c1
  rw [a2] at c2
  rw [a3] at c3
  rw [a4] at c4
  exact ⟨c1, c2, c3, c4, c5⟩

/-! ## Lemmas on signs, widths and decoding -/

/-- For a negative argument `%0wd` writes the sign, then the magnitude padded
to the width less one. -/
theorem fmtInteger_of_neg (w : Nat) (x : Int) (hx : x < 0) :
    fmtInteger w x = '-' :: zeroPadded (w - 1) x.natAbs := by
  simp [fmtInteger, zeroPadded, List.leftpad, hx, fmtDigits_eq_toDigits]

/-- A non-negative field is never narrower than the width. -/
theorem fmtInteger_length_ge (w n : Nat) : w ≤ (fmtInteger w (n : Int)).length := by
  have hneg : ¬ ((n : Int) < 0) := by omega
  simp [fmtInteger, hneg]
  omega

theorem digitChar_toNat (n : Nat) (h : n < 10) : (Nat.digitChar n).toNat - 48 = n := by
  interval_cases n <;> rfl

theorem decodeDigits_append (l1 l2 : List Char) :
    decodeDigits (l1 ++ l2)
      = l2.foldl (fun acc c => 10 * acc + (c.toNat - 48)) (decodeDigits l1) := by
  simp [decodeDigits, List.foldl_append]

theorem decodeDigits_zeros (k : Nat) : decodeDigits (List.replicate k '0') = 0 := by
  induction k with
  | zero => rfl
  | succ k ih =>
    rw [List.replicate_succ', decodeDigits_append, ih]
    rfl

theorem decodeDigits_digits (l : List Nat) (hl : ∀ x ∈ l, x < 10) :
    decodeDigits (l.reverse.map Nat.digitChar) = Nat.ofDigits 10 l := by
  induction l with
  | nil => rfl
  | cons x l ih =>
    have hx : x < 10 := hl x (List.mem_cons_self x l)
    have hl2 : ∀ y ∈ l, y < 10 := fun y hy => hl y (List.mem_cons_of_mem x hy)
    rw [List.reverse_cons, List.map_append, decodeDigits_append, ih hl2, Nat.ofDigits_cons]
    simp only [List.map_cons, List.map_nil, List.foldl_cons, List.foldl_nil,
      digitChar_toNat x hx, Nat.cast_id]
    omega

/-- Decoding what the digit loop writes gives the number back. -/
theorem decodeDigits_fmtDigits (u : Nat) : decodeDigits (fmtDigits u u []) = u := by
  by_cases hu : u = 0
  · subst hu
    rfl
  · rw [fmtDigits_eq_digits u u [] (by omega) (Nat.le_refl u), List.append_nil,
      decodeDigits_digits _ (fun x hx => Nat.digits_lt_base (by decide) hx),
      Nat.ofDigits_digits]

/-- Decoding a non-negative field gives the number back, whatever the width. -/
theorem decodeDigits_fmtInteger (w n : Nat) : decodeDigits (fmtInteger w (n : Int)) = n := by
  have hneg : ¬ ((n : Int) < 0) := by omega
  have e : fmtInteger w (n : Int)
      = List.replicate (w - (fmtDigits n n []).length) '0' ++ fmtDigits n n [] := by
    simp [fmtInteger, hneg]
  rw [e, decodeDigits_append, decodeDigits_zeros]
  exact decodeDigits_fmtDigits n

/-- Two non-negative numbers with the same field are equal. -/
theorem fmtInteger_inj (w : Nat) (x y : Int) (hx : 0 ≤ x) (hy : 0 ≤ y)
    (h : fmtInteger w x = fmtInteger w y) : x = y := by
  obtain ⟨n, rfl⟩ := Int.eq_ofNat_of_zero_le hx
  obtain ⟨m, rfl⟩ := Int.eq_ofNat_of_zero_le hy
  have e := congrArg decodeDigits h
  rw [decodeDigits_fmtInteger, decodeDigits_fmtInteger] at e
  rw [e]

/-- A non-negative field holds digits only. -/
theorem fmtInteger_allDigits (w : Nat) (x : Int) (hx : 0 ≤ x) : allDigits (fmtInteger w x) := by
  obtain ⟨n, rfl⟩ := Int.eq_ofNat_of_zero_le hx
  exact fmtInteger_isDigit w n

/-- Two lists that agree after a separator absent from both heads have equal
heads and equal tails. -/
theorem append_sep_inj (sep : Char) :
    ∀ (a1 a2 r1 r2 : List Char), sep ∉ a1 → sep ∉ a2 →
      a1 ++ sep :: r1 = a2 ++ sep :: r2 → a1 = a2 ∧ r1 = r2 := by
  intro a1
  induction a1 with
  | nil =>
    intro a2 r1 r2 _ h2 h
    cases a2 with
    | nil =>
      simp only [List.nil_append, List.cons.injEq, true_and] at h
      exact ⟨rfl, h⟩
    | cons b a2 =>
      simp only [List.nil_append, List.cons_append, List.cons.injEq] at h
      exact absurd (h.1 ▸ List.mem_cons_self b a2) h2
  | cons a a1 ih =>
    intro a2 r1 r2 h1 h2 h
    cases a2 with
    | nil =>
      simp only [List.nil_append, List.cons_append, List.cons.injEq] at h
      exact absurd (h.1 ▸ List.mem_cons_self a a1) h1
    | cons b a2 =>
      simp only [List.cons_append, List.cons.injEq] at h
      have h1t : sep ∉ a1 := fun hm => h1 (List.mem_cons_of_mem a hm)
      have h2t : sep ∉ a2 := fun hm => h2 (List.mem_cons_of_mem b hm)
      obtain ⟨e1, e2⟩ := ih a2 r1 r2 h1t h2t h.2
      exact ⟨by rw [h.1, e1], e2⟩

theorem sep_not_mem_of_allDigits (sep : Char) (hs : sep.isDigit = false) (l : List Char)
    (hl : allDigits l) : sep ∉ l := by
  intro hm
  have := hl sep hm
  rw [hs] at this
  exact Bool.noConfusion this

/-- The format string laid out as one list, nested to the right. -/
theorem Sprintf_eq_mk (a b c d e : Int) :
    Sprintf a b c d e = String.mk (fmtInteger 2 a ++ '.' :: (fmtInteger 2 b ++ ':' ::
      (fmtInteger 2 c ++ ':' :: (fmtInteger 2 d ++ '.' :: fmtInteger 4 e)))) := by
  simp [Sprintf]

/-- Length of the formatted string: the five fields and four separators. -/
theorem Sprintf_length (a b c d e : Int) :
    (Sprintf a b c d e).length = (fmtInteger 2 a).length + (fmtInteger 2 b).length
      + (fmtInteger 2 c).length + (fmtInteger 2 d).length + (fmtInteger 4 e).length + 4 := by
  rw [Sprintf_eq_mk]
  simp [String.length]
  omega

/-- Two formatted strings of non-negative numbers are equal only when the five
numbers are. -/
theorem Sprintf_inj (a b c d e a' b' c' d' e' : Int) (ha : 0 ≤ a) (hb : 0 ≤ b) (hc : 0 ≤ c)
    (hd : 0 ≤ d) (ha' : 0 ≤ a') (hb' : 0 ≤ b') (hc' : 0 ≤ c') (hd' : 0 ≤ d')
    (he : 0 ≤ e) (he' : 0 ≤ e') (h : Sprintf a b c d e = Sprintf a' b' c' d' e') :
    a = a' ∧ b = b' ∧ c = c' ∧ d = d' ∧ e = e' := by
  rw [Sprintf_eq_mk, Sprintf_eq_mk] at h
  have hl := congrArg String.data h
  simp only at hl
  have dot : ('.' : Char).isDigit = false := by decide
  have col : (':' : Char).isDigit = false := by decide
  obtain ⟨f1, r1⟩ := append_sep_inj '.' _ _ _ _
    (sep_not_mem_of_allDigits '.' dot _ (fmtInteger_allDigits 2 a ha))
    (sep_not_mem_of_allDigits '.' dot _ (fmtInteger_allDigits 2 a' ha')) hl
  obtain ⟨f2, r2⟩ := append_sep_inj ':' _ _ _ _
    (sep_not_mem_of_allDigits ':' col _ (fmtInteger_allDigits 2 b hb))
    (sep_not_mem_of_allDigits ':' col _ (fmtInteger_allDigits 2 b' hb')) r1
  obtain ⟨f3, r3⟩ := append_sep_inj ':' _ _ _ _
    (sep_not_mem_of_allDigits ':' col _ (fmtInteger_allDigits 2 c hc))
    (sep_not_mem_of_allDigits ':' col _ (fmtInteger_allDigits 2 c' hc')) r2
  obtain ⟨f4, r4⟩ := append_sep_inj '.' _ _ _ _
    (sep_not_mem_of_allDigits '.' dot _ (fmtInteger_allDigits 2 d hd))
    (sep_not_mem_of_allDigits '.' dot _ (fmtInteger_allDigits 2 d' hd')) r3
  exact ⟨fmtInteger_inj 2 a a' ha ha' f1, fmtInteger_inj 2 b b' hb hb' f2,
    fmtInteger_inj 2 c c' hc hc' f3, fmtInteger_inj 2 d d' hd hd' f4,
    fmtInteger_inj 4 e e' he he' r4⟩

/-- Width of a non-negative field: the width itself below `10 ^ w`, more from
`10 ^ w` on. -/
theorem fmtInteger_length_cases (w : Nat) (x : Int) (hw : 0 < w) (hx : 0 ≤ x) :
    (x < 10 ^ w → (fmtInteger w x).length = w) ∧
    (10 ^ w ≤ x → w < (fmtInteger w x).length) := by
  obtain ⟨n, rfl⟩ := Int.eq_ofNat_of_zero_le hx
  constructor
  · intro h
    exact fmtInteger_length_of_lt w n hw (by exact_mod_cast h)
  · intro h
    exact fmtInteger_length_of_ge w n hw (by exact_mod_cast h)

/-- A field of a non-positive number: the sign and the magnitude unless the
number is zero, zeros without a sign when it is. -/
theorem fmtInteger_of_nonpos (w : Nat) (x : Int) (hx : x ≤ 0) :
    (x ≠ 0 → fmtInteger w x = '-' :: zeroPadded (w - 1) x.natAbs) ∧
    (x = 0 → fmtInteger w x = zeroPadded w 0) := by
  constructor
  · intro h
    exact fmtInteger_of_neg w x (by omega)
  · intro h
    subst h
    exact fmtInteger_of_nat w 0

/-- The microsecond count of a non-negative duration from its components. -/
theorem micro_of_components (d : Int) (h0 : 0 ≤ d) (h : isInt64 d) (hex : floatExact d) :
    d / 1000 = days d * 86400000000 + hours d * 3600000000 + minutes d * 60000000
      + seconds d * 1000000 + milliPlusOne d := by
  obtain ⟨c1, c2, c3, c4, c5⟩ := components_of_nonneg d h0 h hex
  rw [c1, c2, c3, c4, c5]
  exact (recompose_of_nonneg d).symm

/-- The components of a non-negative duration are non-negative. -/
theorem components_nonneg (d : Int) (h0 : 0 ≤ d) (h : isInt64 d) (hex : floatExact d) :
    0 ≤ days d ∧ 0 ≤ hours d ∧ 0 ≤ minutes d ∧ 0 ≤ seconds d ∧ 0 ≤ milliPlusOne d := by
  obtain ⟨c1, c2, c3, c4, c5⟩ := components_of_nonneg d h0 h hex
  rw [c1, c2, c3, c4, c5]
  clear c1 c2 c3 c4 c5 h
  refine ⟨?_, ?_, ?_, ?_, ?_⟩ <;> omega

/-- The components of the opposite duration are the opposite components, whatever
the conversions return. -/
theorem components_neg (d : Int) (h : isInt64 d) (hn : isInt64 (-d)) :
    days (-d) = -days d ∧ hours (-d) = -hours d ∧ minutes (-d) = -minutes d ∧
    seconds (-d) = -seconds d ∧ milliPlusOne (-d) = -milliPlusOne d := by
  obtain ⟨r1, r2, r3⟩ := refs_neg d h hn
  rcases Int.le_total 0 d with h0 | h0
  · obtain ⟨c1, c2, c3, c4, c5⟩ := components_refs_of_nonneg d h0 h
    obtain ⟨n1, n2, n3, n4, n5⟩ := components_refs_of_nonpos (-d) (by omega) hn
    simp only [r1, r2, r3, Int.neg_neg] at n1 n2 n3 n4 n5
    rw [c1, c2, c3, c4, c5, n1, n2, n3, n4, n5]
    refine ⟨?_, ?_, ?_, ?_, ?_⟩ <;> omega
  · obtain ⟨c1, c2, c3, c4, c5⟩ := components_refs_of_nonpos d h0 h
    obtain ⟨n1, n2, n3, n4, n5⟩ := components_refs_of_nonneg (-d) (by omega) hn
    simp only [r1, r2, r3] at n1 n2 n3 n4 n5
    rw [c1, c2, c3, c4, c5, n1, n2, n3, n4, n5]
    refine ⟨?_, ?_, ?_, ?_, ?_⟩ <;> omega

/-- The weighted sum of the components is the microsecond count, whatever the
conversions return. -/
theorem recompose_of_refs (d : Int) (h : isInt64 d) :
    days d * 86400000000 + hours d * 3600000000 + minutes d * 60000000
      + seconds d * 1000000 + milliPlusOne d = Int.tdiv d 1000 := by
  rcases Int.le_total 0 d with h0 | h0
  · obtain ⟨c1, c2, c3, c4, c5⟩ := components_refs_of_nonneg d h0 h
    rw [c1, c2, c3, c4, c5, tdiv_of_nonneg d 1000 h0 (by decide)]
    omega
  · obtain ⟨c1, c2, c3, c4, c5⟩ := components_refs_of_nonpos d h0 h
    rw [c1, c2, c3, c4, c5, tdiv_of_nonpos d 1000 h0 (by decide)]
    omega

/-- Days and hours of a non-negative duration are in range, and the days are at
least the whole days, whatever the conversions return. -/
theorem days_hours_of_nonneg (d : Int) (h0 : 0 ≤ d) (h : isInt64 d) :
    0 ≤ days d ∧ 0 ≤ hours d ∧ hours d ≤ 23 ∧ d / 86400000000000 ≤ days d := by
  obtain ⟨c1, c2, _, _, _⟩ := components_refs_of_nonneg d h0 h
  obtain ⟨b1, _, _, _⟩ := refs_of_nonneg d h0 h
  rw [c1, c2]
  refine ⟨?_, ?_, ?_, ?_⟩ <;> omega

/-- A field is never narrower than the width, whatever the sign. -/
theorem fmtInteger_length_ge_width (w : Nat) (x : Int) : w ≤ (fmtInteger w x).length := by
  by_cases hx : x < 0
  · rw [fmtInteger_of_neg w x hx]
    simp only [zeroPadded, List.leftpad, List.length_cons, List.length_append,
      List.length_replicate]
    omega
  · obtain ⟨n, rfl⟩ := Int.eq_ofNat_of_zero_le (by omega : 0 ≤ x)
    exact fmtInteger_length_ge w n

/-- The components of a non-positive duration are non-positive. -/
theorem components_nonpos (d : Int) (h0 : d ≤ 0) (h : isInt64 d) (hex : floatExact d) :
    days d ≤ 0 ∧ hours d ≤ 0 ∧ minutes d ≤ 0 ∧ seconds d ≤ 0 ∧ milliPlusOne d ≤ 0 := by
  obtain ⟨c1, c2, c3, c4, c5⟩ := components_of_nonpos d h0 h hex
  rw [c1, c2, c3, c4, c5]
  clear c1 c2 c3 c4 c5 h
  refine ⟨?_, ?_, ?_, ?_, ?_⟩ <;> omega

/-! ## Properties of the duration encoding -/

/-- C1: for d days, h < 24 hours, m < 60 minutes, s < 60 seconds and
u < 1000000 microseconds whose sum fits a 64-bit nanosecond count, the duration
arithmetic of `NewRequestTelemetry` computes days = d, hours = h, minutes = m,
seconds = s and subsecond = u, and the Duration of the payload is these five
numbers in decimal, zero-padded to at least 2, 2, 2, 2 and 4 digits and joined
as days.hours:minutes:seconds.subsecond. -/
theorem duration_components_exact (d h m s u : Nat) (hh : h < 24) (hm : m < 60)
    (hs : s < 60) (hu : u < 1000000) (hfit : isInt64 (durationOf d h m s u)) :
    days (durationOf d h m s u) = d ∧ hours (durationOf d h m s u) = h ∧
    minutes (durationOf d h m s u) = m ∧ seconds (durationOf d h m s u) = s ∧
    milliPlusOne (durationOf d h m s u) = u ∧
    ∀ (name : String) (t0 : Time) (responseCode : String) (success : Bool) (w : World),
      (NewRequestTelemetry name t0 (durationOf d h m s u) responseCode success w).1.data.Duration
        = timespanString d h m s u := by
  have hex : floatExact (durationOf d h m s u) :=
    floatExact_of_domain _ hfit (Or.inr (durationOf_micro d h m s u))
  obtain ⟨c1, c2, c3, c4, c5⟩ :=
    components_of_nonneg _ (durationOf_nonneg d h m s u) hfit hex
  obtain ⟨a1, a2, a3, a4, a5⟩ := durationOf_split d h m s u hh hm hs hu
  have e1 : days (durationOf d h m s u) = d := c1.trans a1
  have e2 : hours (durationOf d h m s u) = h := c2.trans a2
  have e3 : minutes (durationOf d h m s u) = m := c3.trans a3
  have e4 : seconds (durationOf d h m s u) = s := c4.trans a4
  have e5 : milliPlusOne (durationOf d h m s u) = u := c5.trans a5
  refine ⟨e1, e2, e3, e4, e5, ?_⟩
  intro name t0 responseCode success w
  rw [NewRequestTelemetry_Duration]
  unfold durationString
  rw [e1, e2, e3, e4, e5]
  simp [Sprintf, timespanString, fmtInteger_of_nat]

/-- Witness of C1: 1 day, 2 hours, 3 minutes, 4 seconds and 5000 microseconds
give the components 1, 2, 3, 4, 5000 and the string 01.02:03:04.5000. -/
theorem duration_components_exact_witness :
    (2 < 24 ∧ 3 < 60 ∧ 4 < 60 ∧ 5000 < 1000000 ∧ isInt64 (durationOf 1 2 3 4 5000)) ∧
    (days (durationOf 1 2 3 4 5000) = (1 : Nat) ∧ hours (durationOf 1 2 3 4 5000) = (2 : Nat) ∧
      minutes (durationOf 1 2 3 4 5000) = (3 : Nat) ∧
      seconds (durationOf 1 2 3 4 5000) = (4 : Nat) ∧
      milliPlusOne (durationOf 1 2 3 4 5000) = (5000 : Nat) ∧
      ∀ (name : String) (t0 : Time) (responseCode : String) (success : Bool) (w : World),
        (NewRequestTelemetry name t0 (durationOf 1 2 3 4 5000) responseCode success
          w).1.data.Duration = timespanString 1 2 3 4 5000) ∧
    timespanString 1 2 3 4 5000 = "01.02:03:04.5000" :=
  ⟨by decide,
   duration_components_exact 1 2 3 4 5000 (by decide) (by decide) (by decide) (by decide)
     (by decide),
   by decide⟩

/-- Counterexample to C2: the Duration string is not 16 characters for every
non-negative duration. At exactly 100 days it is 100.00:00:00.0000 and at 10
milliseconds it is 00.00:00:00.10000, 17 characters each. -/
theorem duration_fixed_width_counterexample :
    ((0 : Int) ≤ 8640000000000000 ∧ isInt64 8640000000000000 ∧
      durationString 8640000000000000 = "100.00:00:00.0000" ∧
      (durationString 8640000000000000).length = 17 ∧
      ¬ (durationString 8640000000000000).length = 16) ∧
    ((0 : Int) ≤ 10000000 ∧ isInt64 10000000 ∧
      durationString 10000000 = "00.00:00:00.10000" ∧
      (durationString 10000000).length = 17 ∧
      ¬ (durationString 10000000).length = 16) := by
  decide

/-- C2, amended: for every non-negative duration shorter than 100 days whose
sub-second part is below 10000 microseconds, the Duration of the payload is
exactly 16 characters long and has the shape DD.HH:MM:SS.ffff. -/
theorem duration_fixed_width_of_small (d : Int) (h0 : 0 ≤ d) (hdays : d < 8640000000000000)
    (hsub : d / 1000 % 1000000 < 10000) (name : String) (t0 : Time) (responseCode : String)
    (success : Bool) (w : World) :
    isFixedWidth (NewRequestTelemetry name t0 d responseCode success w).1.data.Duration ∧
    (NewRequestTelemetry name t0 d responseCode success w).1.data.Duration.length = 16 := by
  have hfit : isInt64 d := by
    unfold isInt64
    omega
  have hex : floatExact d := floatExact_of_domain d hfit (Or.inl (by omega))
  obtain ⟨c1, c2, c3, c4, c5⟩ := components_of_nonneg d h0 hfit hex
  obtain ⟨l1, g1⟩ := fmtInteger_fixed 2 (days d) (by decide) (by omega) (by omega)
  obtain ⟨l2, g2⟩ := fmtInteger_fixed 2 (hours d) (by decide) (by omega) (by omega)
  obtain ⟨l3, g3⟩ := fmtInteger_fixed 2 (minutes d) (by decide) (by omega) (by omega)
  obtain ⟨l4, g4⟩ := fmtInteger_fixed 2 (seconds d) (by decide) (by omega) (by omega)
  obtain ⟨l5, g5⟩ := fmtInteger_fixed 4 (milliPlusOne d) (by decide) (by omega) (by omega)
  rw [NewRequestTelemetry_Duration]
  constructor
  · refine ⟨fmtInteger 2 (days d), fmtInteger 2 (hours d), fmtInteger 2 (minutes d),
      fmtInteger 2 (seconds d), fmtInteger 4 (milliPlusOne d), l1, l2, l3, l4, l5, ?_, ?_⟩
    · intro c hc
      simp only [List.mem_append] at hc
      rcases hc with (((hc | hc) | hc) | hc) | hc
      · exact g1 c hc
      · exact g2 c hc
      · exact g3 c hc
      · exact g4 c hc
      · exact g5 c hc
    · simp [durationString, Sprintf]
  · simp [durationString, Sprintf, String.length, l1, l2, l3, l4, l5]

/-- Witness of C2, amended: 90 seconds, 00.00:01:30.0000. -/
theorem duration_fixed_width_of_small_witness :
    ((0 : Int) ≤ 90000000000 ∧ (90000000000 : Int) < 8640000000000000 ∧
      (90000000000 : Int) / 1000 % 1000000 < 10000) ∧
    (isFixedWidth (NewRequestTelemetry "GET /home" Time.zero 90000000000 "200" true
        ⟨fun _ => Time.zero, 0, fun _ => "", 0, 0, fun _ _ => ""⟩).1.data.Duration ∧
      (NewRequestTelemetry "GET /home" Time.zero 90000000000 "200" true
        ⟨fun _ => Time.zero, 0, fun _ => "", 0, 0, fun _ _ => ""⟩).1.data.Duration.length
        = 16) :=
  ⟨by decide,
   duration_fixed_width_of_small 90000000000 (by decide) (by decide) (by decide)
     "GET /home" Time.zero "200" true ⟨fun _ => Time.zero, 0, fun _ => "", 0, 0, fun _ _ => ""⟩⟩

/-- Counterexample to C3: at 4097 hours less one nanosecond `int(d.Hours())` is
4097 while the whole hours are 4096, so hours = 17 and minutes = -1 where
H rem 24 = 16 and M rem 60 = 59, and the Duration string 170.17:-1:59.999999
is not the one of the modulo-based formatter, 170.16:59:59.999999. -/
theorem subtraction_is_remainder_counterexample :
    isInt64 14749199999999999 ∧
    refHours 14749199999999999 = 4097 ∧ Int.tdiv 14749199999999999 3600000000000 = 4096 ∧
    hours 14749199999999999 = 17 ∧
    Int.tmod (Int.tdiv 14749199999999999 3600000000000) 24 = 16 ∧
    minutes 14749199999999999 = -1 ∧
    Int.tmod (Int.tdiv 14749199999999999 60000000000) 60 = 59 ∧
    ¬ minutes 14749199999999999 = Int.tmod (Int.tdiv 14749199999999999 60000000000) 60 ∧
    durationString 14749199999999999 = "170.17:-1:59.999999" ∧
    moduloDurationString 14749199999999999 = "170.16:59:59.999999" ∧
    ¬ durationString 14749199999999999 = moduloDurationString 14749199999999999 := by
  decide

/-- C3, amended: for every duration, positive, zero or negative, whose magnitude
is below 14749199999999999 nanoseconds (4097 hours less one nanosecond) or that
is a whole number of microseconds, the subtraction-based reductions of
`NewRequestTelemetry` are true remainders. With H, M, S the whole hours,
minutes and seconds truncated toward zero and U the nanoseconds divided by
1000, hours = H rem 24, minutes = M rem 60 = (U / 60000000) rem 60,
seconds = S rem 60 = (U / 1000000) rem 60, subsecond = U rem 1000000 and
days = U / 86400000000, with truncating division and its remainder; so the
Duration string is the one of a modulo-based timespan formatter. -/
theorem subtraction_is_remainder (d : Int) (h : isInt64 d)
    (hdom : d.natAbs < 14749199999999999 ∨ d % 1000 = 0) :
    hours d = Int.tmod (Int.tdiv d 3600000000000) 24 ∧
    minutes d = Int.tmod (Int.tdiv d 60000000000) 60 ∧
    minutes d = Int.tmod (Int.tdiv (Int.tdiv d 1000) 60000000) 60 ∧
    seconds d = Int.tmod (Int.tdiv d 1000000000) 60 ∧
    seconds d = Int.tmod (Int.tdiv (Int.tdiv d 1000) 1000000) 60 ∧
    milliPlusOne d = Int.tmod (Int.tdiv d 1000) 1000000 ∧
    days d = Int.tdiv (Int.tdiv d 1000) 86400000000 ∧
    durationString d = moduloDurationString d := by
  have hc := components_eq_modulo d h (floatExact_of_domain d h hdom)
  obtain ⟨m1, m2⟩ := tmod_of_micro d
  simp only [moduloComponents, Prod.mk.injEq] at hc
  obtain ⟨c1, c2, c3, c4, c5⟩ := hc
  refine ⟨c2, c3, c3.trans m1, c4, c4.trans m2, c5, c1, ?_⟩
  unfold durationString moduloDurationString moduloComponents
  simp only
  rw [c1, c2, c3, c4, c5]

/-- Witness of C3, amended: a negative duration on an exact hour boundary, minus
25 hours. -/
theorem subtraction_is_remainder_witness :
    (isInt64 (-90000000000000) ∧
      ((-90000000000000 : Int).natAbs < 14749199999999999
        ∨ (-90000000000000 : Int) % 1000 = 0)) ∧
    (hours (-90000000000000) = Int.tmod (Int.tdiv (-90000000000000) 3600000000000) 24 ∧
    minutes (-90000000000000) = Int.tmod (Int.tdiv (-90000000000000) 60000000000) 60 ∧
    minutes (-90000000000000)
      = Int.tmod (Int.tdiv (Int.tdiv (-90000000000000) 1000) 60000000) 60 ∧
    seconds (-90000000000000) = Int.tmod (Int.tdiv (-90000000000000) 1000000000) 60 ∧
    seconds (-90000000000000)
      = Int.tmod (Int.tdiv (Int.tdiv (-90000000000000) 1000) 1000000) 60 ∧
    milliPlusOne (-90000000000000) = Int.tmod (Int.tdiv (-90000000000000) 1000) 1000000 ∧
    days (-90000000000000) = Int.tdiv (Int.tdiv (-90000000000000) 1000) 86400000000 ∧
    durationString (-90000000000000) = moduloDurationString (-90000000000000)) ∧
    durationString (-90000000000000) = "-1.-1:00:00.0000" :=
  ⟨by decide, subtraction_is_remainder (-90000000000000) (by decide) (by decide), by decide⟩

/-- C4: for a zero-length duration the Duration of the payload of
`NewRequestTelemetry` is 00.00:00:00.0000, whatever the other arguments. -/
theorem duration_zero (name : String) (t0 : Time) (responseCode : String) (success : Bool)
    (w : World) :
    (NewRequestTelemetry name t0 0 responseCode success w).1.data.Duration
      = "00.00:00:00.0000" := by
  rw [NewRequestTelemetry_Duration]
  decide

/-! ## Properties of the records -/

/-- C5: for every name, start timestamp, duration, response code and success
flag, the payload built by `NewRequestTelemetry` has Name, ResponseCode and
Success equal to the inputs, StartTime equal to the start timestamp rendered
with the RFC 3339 nanosecond layout, Duration equal to the formatted duration
and Id equal to the string of the one call of the identifier generator. For
("GET /home", t0, 90 seconds, "200", true) the Duration is 00.00:01:30.0000,
the ResponseCode "200" and Success true. -/
theorem request_payload_fields (name : String) (t0 : Time) (duration : Int)
    (responseCode : String) (success : Bool) (w : World) :
    ((NewRequestTelemetry name t0 duration responseCode success w).1.baseData
        = Domain.request (NewRequestTelemetry name t0 duration responseCode success w).1.data ∧
      (NewRequestTelemetry name t0 duration responseCode success w).1.data.Name = name ∧
      (NewRequestTelemetry name t0 duration responseCode success w).1.data.ResponseCode
        = responseCode ∧
      (NewRequestTelemetry name t0 duration responseCode success w).1.data.Success = success ∧
      (NewRequestTelemetry name t0 duration responseCode success w).1.data.StartTime
        = w.timeFormat t0 "2006-01-02T15:04:05.999999999Z07:00" ∧
      (NewRequestTelemetry name t0 duration responseCode success w).1.data.Duration
        = durationString duration ∧
      (NewRequestTelemetry name t0 duration responseCode success w).1.data.Id
        = w.uuids w.uuidCalls ∧
      (NewRequestTelemetry name t0 duration responseCode success w).2.uuidCalls
        = w.uuidCalls + 1) ∧
    ((NewRequestTelemetry "GET /home" t0 90000000000 "200" true w).1.data.Duration
        = "00.00:01:30.0000" ∧
      (NewRequestTelemetry "GET /home" t0 90000000000 "200" true w).1.data.ResponseCode
        = "200" ∧
      (NewRequestTelemetry "GET /home" t0 90000000000 "200" true w).1.data.Success = true ∧
      (NewRequestTelemetry "GET /home" t0 90000000000 "200" true w).1.data.StartTime
        = w.timeFormat t0 RFC3339Nano) := by
  refine ⟨⟨rfl, rfl, rfl, rfl, rfl, rfl, rfl, rfl⟩, ?_, rfl, rfl, rfl⟩
  rw [NewRequestTelemetry_Duration]
  decide

/-- C6: the type tag is fixed per variant. For all arguments the records of
`NewTraceTelemetry`, `NewEventTelemetry`, `NewMetricTelemetry` and
`NewRequestTelemetry` have the tags "Message", "Event", "Metric" and "Request";
the tag of any `Telemetry` value is one of these four strings, and the four
are pairwise distinct. -/
theorem baseTypeName_fixed :
    (∀ (message : String) (severityLevel : SeverityLevel) (w : World),
      (NewTraceTelemetry message severityLevel w).1.baseTypeName = "Message" ∧
      (Telemetry.trace (NewTraceTelemetry message severityLevel w).1).baseTypeName
        = "Message") ∧
    (∀ (name : String) (w : World),
      (NewEventTelemetry name w).1.baseTypeName = "Event" ∧
      (Telemetry.event (NewEventTelemetry name w).1).baseTypeName = "Event") ∧
    (∀ (name : String) (value : float32) (w : World),
      ∃ r, NewMetricTelemetry name value w = some r ∧ r.1.baseTypeName = "Metric" ∧
        (Telemetry.metric r.1).baseTypeName = "Metric") ∧
    (∀ (name : String) (t0 : Time) (duration : Int) (responseCode : String) (success : Bool)
        (w : World),
      (NewRequestTelemetry name t0 duration responseCode success w).1.baseTypeName = "Request" ∧
      (Telemetry.request
        (NewRequestTelemetry name t0 duration responseCode success w).1).baseTypeName
        = "Request") ∧
    (∀ t : Telemetry, t.baseTypeName ∈ ["Message", "Event", "Metric", "Request"]) ∧
    ["Message", "Event", "Metric", "Request"].Nodup := by
  refine ⟨fun _ _ _ => ⟨rfl, rfl⟩, fun _ _ => ⟨rfl, rfl⟩, ?_, fun _ _ _ _ _ _ => ⟨rfl, rfl⟩,
    ?_, by decide⟩
  · intro name value w
    exact ⟨_, NewMetricTelemetry_eq name value w, rfl, rfl⟩
  · intro t
    cases t <;> simp [Telemetry.baseTypeName, TraceTelemetry.baseTypeName,
      EventTelemetry.baseTypeName, MetricTelemetry.baseTypeName,
      RequestTelemetry.baseTypeName]

/-- C7: for every input of each of the four constructors the payload returned
by `baseData` of the constructed record has the version number 2. -/
theorem payload_version_two :
    (∀ (message : String) (severityLevel : SeverityLevel) (w : World),
      (NewTraceTelemetry message severityLevel w).1.baseData.Ver = 2) ∧
    (∀ (name : String) (w : World), (NewEventTelemetry name w).1.baseData.Ver = 2) ∧
    (∀ (name : String) (value : float32) (w : World),
      ∃ r, NewMetricTelemetry name value w = some r ∧ r.1.baseData.Ver = 2) ∧
    (∀ (name : String) (t0 : Time) (duration : Int) (responseCode : String) (success : Bool)
        (w : World),
      (NewRequestTelemetry name t0 duration responseCode success w).1.baseData.Ver = 2) := by
  refine ⟨fun _ _ _ => rfl, fun _ _ => rfl, ?_, fun _ _ _ _ _ _ => rfl⟩
  intro name value w
  exact ⟨_, NewMetricTelemetry_eq name value w, rfl⟩

/-- C8: for every name and every 32-bit float value, `NewMetricTelemetry`
returns a record (the write to index 0 of the slice made with length 1 is in
bounds) whose payload has a Metrics sequence of length exactly 1; its single
data point has Name equal to the name, Value equal to the value and Count 1. -/
theorem metric_single_point (name : String) (value : float32) (w : World) :
    sliceSet (make 1) 0 ({ Name := name, Value := value, Count := 1 } : DataPoint)
      = some [some { Name := name, Value := value, Count := 1 }] ∧
    ∃ r, NewMetricTelemetry name value w = some r ∧
      r.1.baseData = Domain.metric r.1.data ∧
      r.1.data.Metrics.length = 1 ∧
      r.1.data.Metrics = [some { Name := name, Value := value, Count := 1 }] ∧
      ∃ p, r.1.data.Metrics.get? 0 = some (some p) ∧ p.Name = name ∧ p.Value = value ∧
        p.Count = 1 := by
  refine ⟨rfl, _, NewMetricTelemetry_eq name value w, rfl, rfl, rfl, _, rfl, rfl, rfl, rfl⟩

/-- C9: for every variant `Timestamp()` of the constructed record is the clock
reading taken by the constructor and `Context()` is the context created by the
constructor. For `NewRequestTelemetry` the caller-supplied start timestamp
changes neither of them, nor the world after the call, nor any field of the
payload other than StartTime. -/
theorem timestamp_and_context_of_record :
    (∀ (message : String) (severityLevel : SeverityLevel) (w : World),
      (NewTraceTelemetry message severityLevel w).1.Timestamp = w.clock w.clockReads ∧
      (NewTraceTelemetry message severityLevel w).1.Timestamp = (timeNow w).1 ∧
      (NewTraceTelemetry message severityLevel w).1.Context
        = (NewItemTelemetryContext (timeNow w).2).1) ∧
    (∀ (name : String) (w : World),
      (NewEventTelemetry name w).1.Timestamp = w.clock w.clockReads ∧
      (NewEventTelemetry name w).1.Timestamp = (timeNow w).1 ∧
      (NewEventTelemetry name w).1.Context = (NewItemTelemetryContext (timeNow w).2).1) ∧
    (∀ (name : String) (value : float32) (w : World),
      ∃ r, NewMetricTelemetry name value w = some r ∧
        r.1.Timestamp = w.clock w.clockReads ∧ r.1.Timestamp = (timeNow w).1 ∧
        r.1.Context = (NewItemTelemetryContext (timeNow w).2).1) ∧
    (∀ (name : String) (t0 : Time) (duration : Int) (responseCode : String) (success : Bool)
        (w : World),
      (NewRequestTelemetry name t0 duration responseCode success w).1.Timestamp
        = w.clock w.clockReads ∧
      (NewRequestTelemetry name t0 duration responseCode success w).1.Timestamp
        = (timeNow w).1 ∧
      (NewRequestTelemetry name t0 duration responseCode success w).1.Context
        = (NewItemTelemetryContext (uuidNewV4String (timeNow w).2).2).1) ∧
    (∀ (name : String) (t1 t2 : Time) (duration : Int) (responseCode : String)
        (success : Bool) (w : World),
      (NewRequestTelemetry name t1 duration responseCode success w).1.Timestamp
        = (NewRequestTelemetry name t2 duration responseCode success w).1.Timestamp ∧
      (NewRequestTelemetry name t1 duration responseCode success w).1.Context
        = (NewRequestTelemetry name t2 duration responseCode success w).1.Context ∧
      (NewRequestTelemetry name t1 duration responseCode success w).2
        = (NewRequestTelemetry name t2 duration responseCode success w).2 ∧
      { (NewRequestTelemetry name t1 duration responseCode success w).1.data with
          StartTime := "" }
        = { (NewRequestTelemetry name t2 duration responseCode success w).1.data with
          StartTime := "" } ∧
      (NewRequestTelemetry name t1 duration responseCode success w).1.data.StartTime
        = w.timeFormat t1 RFC3339Nano) := by
  refine ⟨fun _ _ _ => ⟨rfl, rfl, rfl⟩, fun _ _ => ⟨rfl, rfl, rfl⟩, ?_,
    fun _ _ _ _ _ _ => ⟨rfl, rfl, rfl⟩, fun _ _ _ _ _ _ _ => ⟨rfl, rfl, rfl, rfl, rfl⟩⟩
  intro name value w
  exact ⟨_, NewMetricTelemetry_eq name value w, rfl, rfl, rfl⟩

/-- C10: every constructor call creates its own context by one call of the
context factory, so two records constructed in sequence, of the same or of
different variants, never have the same context; more generally the contexts
of the records of any sequence of calls are pairwise distinct. -/
theorem context_never_shared :
    (∀ (c : Call) (w : World), ∃ t w', c.run w = some (t, w') ∧
      t.Context = TelemetryContext.ref w.contexts ∧ w'.contexts = w.contexts + 1) ∧
    (∀ (c1 c2 : Call) (w : World), ∃ t1 w1 t2 w2, c1.run w = some (t1, w1) ∧
      c2.run w1 = some (t2, w2) ∧ t1.Context ≠ t2.Context) ∧
    (∀ (cs : List Call) (w : World), ∃ ts w', runCalls cs w = some (ts, w') ∧
      ts.length = cs.length ∧ (ts.map Telemetry.Context).Nodup) := by
  refine ⟨?_, ?_, ?_⟩
  · intro c w
    exact Call.run_context c w
  · intro c1 c2 w
    obtain ⟨t1, w1, h1, h2, h3⟩ := Call.run_context c1 w
    obtain ⟨t2, w2, g1, g2, g3⟩ := Call.run_context c2 w1
    refine ⟨t1, w1, t2, w2, h1, g1, ?_⟩
    rw [h2, g2, h3]
    intro h
    have := ref_injective h
    omega
  · intro cs w
    obtain ⟨ts, w', h1, h2, h3⟩ := runCalls_contexts cs w
    refine ⟨ts, w', h1, ?_, ?_⟩
    · have := congrArg List.length h2
      simpa using this
    · rw [h2]
      exact (List.nodup_range' w.contexts cs.length).map ref_injective

/-! ## Further properties of the constructors and of the duration encoding -/

/-- C11: the severity argument of `NewTraceTelemetry` has no effect. For every
message and any two severity levels, from the same world (clock reading and
created context) the two calls give equal records and equal worlds: same
timestamp, context, type tag and payload; the payload holds the message and
the version only. -/
theorem severity_has_no_effect (message : String) (s1 s2 : SeverityLevel) (w : World) :
    NewTraceTelemetry message s1 w = NewTraceTelemetry message s2 w ∧
    (NewTraceTelemetry message s1 w).1.Timestamp
      = (NewTraceTelemetry message s2 w).1.Timestamp ∧
    (NewTraceTelemetry message s1 w).1.Context = (NewTraceTelemetry message s2 w).1.Context ∧
    (NewTraceTelemetry message s1 w).1.baseTypeName
      = (NewTraceTelemetry message s2 w).1.baseTypeName ∧
    (NewTraceTelemetry message s1 w).1.baseData = (NewTraceTelemetry message s2 w).1.baseData ∧
    (NewTraceTelemetry message s1 w).1.baseData
      = Domain.message { Ver := 2, Message := message } :=
  ⟨rfl, rfl, rfl, rfl, rfl, rfl⟩

/-- C12: the duration decomposition of `NewRequestTelemetry` loses no
information. For every duration, positive, zero or negative,
days*86400000000 + hours*3600000000 + minutes*60000000 + seconds*1000000
+ subsecond is the nanosecond count divided by 1000 with truncation. -/
theorem decomposition_lossless (d : Int) (h : isInt64 d) :
    days d * 86400000000 + hours d * 3600000000 + minutes d * 60000000
      + seconds d * 1000000 + milliPlusOne d = Int.tdiv d 1000 := by
  exact recompose_of_refs d h

/-- Witness of C12: minus 1 day, 2 hours, 3 minutes, 4 seconds, 5000
microseconds and 999 nanoseconds. -/
theorem decomposition_lossless_witness :
    isInt64 (-93784005000999) ∧
    days (-93784005000999) * 86400000000 + hours (-93784005000999) * 3600000000
      + minutes (-93784005000999) * 60000000 + seconds (-93784005000999) * 1000000
      + milliPlusOne (-93784005000999) = Int.tdiv (-93784005000999) 1000 ∧
    Int.tdiv (-93784005000999) 1000 = -93784005000 :=
  ⟨by decide, decomposition_lossless (-93784005000999) (by decide), by decide⟩

/-- Counterexample to C13: three non-negative durations with a negative
component. At 4097 hours less one nanosecond the minutes are -1, at 262145
minutes less one nanosecond the seconds are -1, at 16777217 seconds less one
nanosecond the subsecond is -1. -/
theorem components_in_range_counterexample :
    ((0 : Int) ≤ 14749199999999999 ∧ isInt64 14749199999999999 ∧
      minutes 14749199999999999 = -1 ∧ ¬ 0 ≤ minutes 14749199999999999) ∧
    ((0 : Int) ≤ 15728699999999999 ∧ isInt64 15728699999999999 ∧
      seconds 15728699999999999 = -1 ∧ ¬ 0 ≤ seconds 15728699999999999) ∧
    ((0 : Int) ≤ 16777216999999999 ∧ isInt64 16777216999999999 ∧
      milliPlusOne 16777216999999999 = -1 ∧ ¬ 0 ≤ milliPlusOne 16777216999999999) := by
  decide

/-- C13, amended: for every non-negative duration days >= 0 and
0 <= hours <= 23; for every non-negative duration below 14749199999999999
nanoseconds (4097 hours less one nanosecond) or of a whole number of
microseconds, also 0 <= minutes <= 59, 0 <= seconds <= 59 and
0 <= subsecond <= 999999, so that the seconds field is not 60 and no field is
negative. -/
theorem components_in_range (d : Int) (h0 : 0 ≤ d) (h : isInt64 d) :
    (0 ≤ days d ∧ 0 ≤ hours d ∧ hours d ≤ 23) ∧
    ((d.natAbs < 14749199999999999 ∨ d % 1000 = 0) →
      (0 ≤ minutes d ∧ minutes d ≤ 59) ∧ (0 ≤ seconds d ∧ seconds d ≤ 59) ∧
      (0 ≤ milliPlusOne d ∧ milliPlusOne d ≤ 999999) ∧ seconds d ≠ 60) := by
  obtain ⟨g1, g2, g3, _⟩ := days_hours_of_nonneg d h0 h
  refine ⟨⟨g1, g2, g3⟩, ?_⟩
  intro hdom
  obtain ⟨c1, c2, c3, c4, c5⟩ := components_of_nonneg d h0 h (floatExact_of_domain d h hdom)
  rw [c3, c4, c5]
  clear c1 c2 c3 c4 c5 h hdom g1 g2 g3
  refine ⟨⟨?_, ?_⟩, ⟨?_, ?_⟩, ⟨?_, ?_⟩, ?_⟩ <;> omega

/-- Witness of C13, amended: one nanosecond short of a minute, the seconds are
59. -/
theorem components_in_range_witness :
    ((0 : Int) ≤ 59999999999 ∧ isInt64 59999999999 ∧
      ((59999999999 : Int).natAbs < 14749199999999999 ∨ (59999999999 : Int) % 1000 = 0)) ∧
    ((0 ≤ days 59999999999 ∧ 0 ≤ hours 59999999999 ∧ hours 59999999999 ≤ 23) ∧
      (0 ≤ minutes 59999999999 ∧ minutes 59999999999 ≤ 59) ∧
      (0 ≤ seconds 59999999999 ∧ seconds 59999999999 ≤ 59) ∧
      (0 ≤ milliPlusOne 59999999999 ∧ milliPlusOne 59999999999 ≤ 999999) ∧
      seconds 59999999999 ≠ 60) ∧
    seconds 59999999999 = 59 ∧ milliPlusOne 59999999999 = 999999 :=
  ⟨by decide,
   ⟨(components_in_range 59999999999 (by decide) (by decide)).1,
    (components_in_range 59999999999 (by decide) (by decide)).2 (by decide)⟩,
   by decide⟩

/-- Counterexample to C14: at 4097 hours less one nanosecond the minutes field
of the Duration string is -1, and at 262145 minutes less one nanosecond the
seconds field is -1: two characters, but not two decimal digits. -/
theorem duration_width_iff_counterexample :
    ((0 : Int) ≤ 14749199999999999 ∧ isInt64 14749199999999999 ∧
      fmtInteger 2 (minutes 14749199999999999) = ['-', '1'] ∧
      ¬ allDigits (fmtInteger 2 (minutes 14749199999999999)) ∧
      durationString 14749199999999999 = "170.17:-1:59.999999") ∧
    ((0 : Int) ≤ 15728699999999999 ∧ isInt64 15728699999999999 ∧
      fmtInteger 2 (seconds 15728699999999999) = ['-', '1'] ∧
      ¬ allDigits (fmtInteger 2 (seconds 15728699999999999)) ∧
      durationString 15728699999999999 = "182.01:05:-1.999999") := by
  decide

/-- C14, amended: for every non-negative duration the hours field of the
Duration string is exactly two decimal digits, and the whole string is exactly
16 characters long if and only if the duration is shorter than 100 days and its
sub-second part is less than 10000 microseconds, otherwise longer; for every
non-negative duration below 14749199999999999 nanoseconds (4097 hours less one
nanosecond) or of a whole number of microseconds the minutes and seconds
fields are exactly two decimal digits each as well. -/
theorem duration_width_iff (d : Int) (h0 : 0 ≤ d) (h : isInt64 d) (name : String) (t0 : Time)
    (responseCode : String) (success : Bool) (w : World) :
    (NewRequestTelemetry name t0 d responseCode success w).1.data.Duration
      = String.mk (fmtInteger 2 (days d) ++ ['.'] ++ fmtInteger 2 (hours d) ++ [':']
          ++ fmtInteger 2 (minutes d) ++ [':'] ++ fmtInteger 2 (seconds d) ++ ['.']
          ++ fmtInteger 4 (milliPlusOne d)) ∧
    ((fmtInteger 2 (hours d)).length = 2 ∧ allDigits (fmtInteger 2 (hours d))) ∧
    ((d.natAbs < 14749199999999999 ∨ d % 1000 = 0) →
      ((fmtInteger 2 (minutes d)).length = 2 ∧ allDigits (fmtInteger 2 (minutes d))) ∧
      ((fmtInteger 2 (seconds d)).length = 2 ∧ allDigits (fmtInteger 2 (seconds d)))) ∧
    ((NewRequestTelemetry name t0 d responseCode success w).1.data.Duration.length = 16
      ↔ (d < 8640000000000000 ∧ d / 1000 % 1000000 < 10000)) ∧
    (¬ (d < 8640000000000000 ∧ d / 1000 % 1000000 < 10000) →
      16 < (NewRequestTelemetry name t0 d responseCode success w).1.data.Duration.length) := by
  obtain ⟨g1, g2, g3, g4⟩ := days_hours_of_nonneg d h0 h
  obtain ⟨lh, gh⟩ := fmtInteger_fixed 2 (hours d) (by decide) g2 (by omega)
  have len : (durationString d).length
      = (fmtInteger 2 (days d)).length + (fmtInteger 2 (hours d)).length
        + (fmtInteger 2 (minutes d)).length + (fmtInteger 2 (seconds d)).length
        + (fmtInteger 4 (milliPlusOne d)).length + 4 := by
    unfold durationString
    exact Sprintf_length _ _ _ _ _
  have wm := fmtInteger_length_ge_width 2 (minutes d)
  have ws := fmtInteger_length_ge_width 2 (seconds d)
  have wf := fmtInteger_length_ge_width 4 (milliPlusOne d)
  have wd := fmtInteger_length_ge_width 2 (days d)
  obtain ⟨a1, b1⟩ := fmtInteger_length_cases 2 (days d) (by decide) g1
  -- the exact part, below 100 days
  have small : d < 8640000000000000 →
      (fmtInteger 2 (minutes d)).length = 2 ∧ (fmtInteger 2 (seconds d)).length = 2 ∧
      (fmtInteger 2 (days d)).length = 2 ∧
      (d / 1000 % 1000000 < 10000 → (fmtInteger 4 (milliPlusOne d)).length = 4) ∧
      (¬ d / 1000 % 1000000 < 10000 → 4 < (fmtInteger 4 (milliPlusOne d)).length) := by
    intro hs
    have hex : floatExact d := floatExact_of_domain d h (Or.inl (by omega))
    obtain ⟨c1, c2, c3, c4, c5⟩ := components_of_nonneg d h0 h hex
    obtain ⟨p1, p2, p3, p4, p5⟩ := components_nonneg d h0 h hex
    obtain ⟨l3, _⟩ := fmtInteger_fixed 2 (minutes d) (by decide) p3 (by omega)
    obtain ⟨l4, _⟩ := fmtInteger_fixed 2 (seconds d) (by decide) p4 (by omega)
    obtain ⟨a5, b5⟩ := fmtInteger_length_cases 4 (milliPlusOne d) (by decide) p5
    have k1 : days d < 10 ^ 2 := by
      rw [c1]
      omega
    refine ⟨l3, l4, a1 k1, ?_, ?_⟩
    · intro hsub
      apply a5
      rw [c5]
      omega
    · intro hsub
      apply b5
      rw [c5]
      omega
  have long : ¬ (d < 8640000000000000 ∧ d / 1000 % 1000000 < 10000) →
      16 < (durationString d).length := by
    intro hn
    rw [len, lh]
    by_cases hs : d < 8640000000000000
    · obtain ⟨l3, l4, l1, _, l5⟩ := small hs
      have hsub : ¬ d / 1000 % 1000000 < 10000 := fun hsub => hn ⟨hs, hsub⟩
      have := l5 hsub
      omega
    · have := b1 (by omega)
      omega
  rw [NewRequestTelemetry_Duration]
  refine ⟨?_, ⟨lh, gh⟩, ?_, ⟨?_, ?_⟩, long⟩
  · simp [durationString, Sprintf]
  · intro hdom
    have hex : floatExact d := floatExact_of_domain d h hdom
    obtain ⟨p1, p2, p3, p4, p5⟩ := components_nonneg d h0 h hex
    obtain ⟨c1, c2, c3, c4, c5⟩ := components_of_nonneg d h0 h hex
    exact ⟨fmtInteger_fixed 2 (minutes d) (by decide) p3 (by omega),
      fmtInteger_fixed 2 (seconds d) (by decide) p4 (by omega)⟩
  · intro hlen
    by_contra hn
    have := long hn
    omega
  · rintro ⟨hs, hsub⟩
    obtain ⟨l3, l4, l1, l5, _⟩ := small hs
    rw [len, lh, l3, l4, l1, l5 hsub]

/-- Witness of C14, amended: 10 milliseconds, under 100 days but with a
sub-second part of 10000 microseconds, gives 17 characters; 90 seconds gives
16. -/
theorem duration_width_iff_witness :
    ((0 : Int) ≤ 10000000 ∧ isInt64 10000000 ∧
      ((10000000 : Int).natAbs < 14749199999999999 ∨ (10000000 : Int) % 1000 = 0)) ∧
    (((fmtInteger 2 (hours 10000000)).length = 2 ∧ allDigits (fmtInteger 2 (hours 10000000))) ∧
    ((fmtInteger 2 (minutes 10000000)).length = 2
      ∧ allDigits (fmtInteger 2 (minutes 10000000))) ∧
    ((fmtInteger 2 (seconds 10000000)).length = 2
      ∧ allDigits (fmtInteger 2 (seconds 10000000))) ∧
    ((NewRequestTelemetry "r" Time.zero 10000000 "200" true
        ⟨fun _ => Time.zero, 0, fun _ => "", 0, 0, fun _ _ => ""⟩).1.data.Duration.length = 16
      ↔ ((10000000 : Int) < 8640000000000000 ∧ (10000000 : Int) / 1000 % 1000000 < 10000)) ∧
    (¬ ((10000000 : Int) < 8640000000000000 ∧ (10000000 : Int) / 1000 % 1000000 < 10000) →
      16 < (NewRequestTelemetry "r" Time.zero 10000000 "200" true
        ⟨fun _ => Time.zero, 0, fun _ => "", 0, 0,
          fun _ _ => ""⟩).1.data.Duration.length)) ∧
    (durationString 10000000).length = 17 ∧ (durationString 90000000000).length = 16 :=
  ⟨by decide,
   ⟨(duration_width_iff 10000000 (by decide) (by decide) "r" Time.zero "200" true
      ⟨fun _ => Time.zero, 0, fun _ => "", 0, 0, fun _ _ => ""⟩).2.1,
    ((duration_width_iff 10000000 (by decide) (by decide) "r" Time.zero "200" true
      ⟨fun _ => Time.zero, 0, fun _ => "", 0, 0, fun _ _ => ""⟩).2.2.1 (by decide)).1,
    ((duration_width_iff 10000000 (by decide) (by decide) "r" Time.zero "200" true
      ⟨fun _ => Time.zero, 0, fun _ => "", 0, 0, fun _ _ => ""⟩).2.2.1 (by decide)).2,
    (duration_width_iff 10000000 (by decide) (by decide) "r" Time.zero "200" true
      ⟨fun _ => Time.zero, 0, fun _ => "", 0, 0, fun _ _ => ""⟩).2.2.2.1,
    (duration_width_iff 10000000 (by decide) (by decide) "r" Time.zero "200" true
      ⟨fun _ => Time.zero, 0, fun _ => "", 0, 0, fun _ _ => ""⟩).2.2.2.2⟩,
   by
     set_option maxRecDepth 4000 in
     decide⟩

/-- Counterexample to C15: the negative duration of 16777217 seconds less one
nanosecond has the positive subsecond 1, written without a sign, in the string
-194.-4:-20:-17.0001; the negative duration of 4097 hours less one nanosecond
has the positive minutes 1. -/
theorem components_odd_symmetric_counterexample :
    (isInt64 (-16777216999999999) ∧ (-16777216999999999 : Int) ≠ -9223372036854775808 ∧
      (-16777216999999999 : Int) < 0 ∧
      milliPlusOne (-16777216999999999) = 1 ∧ ¬ milliPlusOne (-16777216999999999) ≤ 0 ∧
      fmtInteger 4 (milliPlusOne (-16777216999999999)) = ['0', '0', '0', '1'] ∧
      durationString (-16777216999999999) = "-194.-4:-20:-17.0001") ∧
    (isInt64 (-14749199999999999) ∧ (-14749199999999999 : Int) ≠ -9223372036854775808 ∧
      (-14749199999999999 : Int) < 0 ∧
      minutes (-14749199999999999) = 1 ∧ ¬ minutes (-14749199999999999) ≤ 0 ∧
      durationString (-14749199999999999) = "-170.-17:01:-59.-999999") := by
  decide

/-- C15, amended: the duration decomposition is odd-symmetric: for every
duration d other than the minimum 64-bit value each of the five components
computed for -d is the negation of the component computed for d. For a
negative duration days and hours are <= 0; for a negative duration of
magnitude below 14749199999999999 nanoseconds (4097 hours less one nanosecond)
or of a whole number of microseconds every component is <= 0, and each field of
the Duration string is the minus sign followed by the magnitude when its
component is not zero, and zeros without a sign when it is. -/
theorem components_odd_symmetric (d : Int) (h : isInt64 d)
    (hmin : d ≠ -9223372036854775808) :
    (days (-d) = -days d ∧ hours (-d) = -hours d ∧ minutes (-d) = -minutes d ∧
      seconds (-d) = -seconds d ∧ milliPlusOne (-d) = -milliPlusOne d) ∧
    (d < 0 → days d ≤ 0 ∧ hours d ≤ 0) ∧
    (d < 0 → (d.natAbs < 14749199999999999 ∨ d % 1000 = 0) →
      (days d ≤ 0 ∧ hours d ≤ 0 ∧ minutes d ≤ 0 ∧ seconds d ≤ 0 ∧ milliPlusOne d ≤ 0) ∧
      durationString d
        = String.mk (fmtInteger 2 (days d) ++ ['.'] ++ fmtInteger 2 (hours d) ++ [':']
            ++ fmtInteger 2 (minutes d) ++ [':'] ++ fmtInteger 2 (seconds d) ++ ['.']
            ++ fmtInteger 4 (milliPlusOne d)) ∧
      ((days d ≠ 0 → fmtInteger 2 (days d) = '-' :: zeroPadded 1 (days d).natAbs) ∧
        (days d = 0 → fmtInteger 2 (days d) = zeroPadded 2 0)) ∧
      ((hours d ≠ 0 → fmtInteger 2 (hours d) = '-' :: zeroPadded 1 (hours d).natAbs) ∧
        (hours d = 0 → fmtInteger 2 (hours d) = zeroPadded 2 0)) ∧
      ((minutes d ≠ 0 → fmtInteger 2 (minutes d) = '-' :: zeroPadded 1 (minutes d).natAbs) ∧
        (minutes d = 0 → fmtInteger 2 (minutes d) = zeroPadded 2 0)) ∧
      ((seconds d ≠ 0 → fmtInteger 2 (seconds d) = '-' :: zeroPadded 1 (seconds d).natAbs) ∧
        (seconds d = 0 → fmtInteger 2 (seconds d) = zeroPadded 2 0)) ∧
      ((milliPlusOne d ≠ 0
          → fmtInteger 4 (milliPlusOne d) = '-' :: zeroPadded 3 (milliPlusOne d).natAbs) ∧
        (milliPlusOne d = 0 → fmtInteger 4 (milliPlusOne d) = zeroPadded 4 0))) := by
  have hn : isInt64 (-d) := by
    unfold isInt64 at h ⊢
    omega
  refine ⟨components_neg d h hn, ?_, ?_⟩
  · intro hneg
    obtain ⟨c1, c2, _, _, _⟩ := components_refs_of_nonpos d (by omega) h
    obtain ⟨b1, _, _, _⟩ := refs_of_nonpos d (by omega) h
    rw [c1, c2]
    constructor <;> omega
  · intro hneg hdom
    obtain ⟨p1, p2, p3, p4, p5⟩ :=
      components_nonpos d (by omega) h (floatExact_of_domain d h hdom)
    refine ⟨⟨p1, p2, p3, p4, p5⟩, ?_, fmtInteger_of_nonpos 2 _ p1,
      fmtInteger_of_nonpos 2 _ p2, fmtInteger_of_nonpos 2 _ p3, fmtInteger_of_nonpos 2 _ p4,
      fmtInteger_of_nonpos 4 _ p5⟩
    simp [durationString, Sprintf]

/-- Witness of C15, amended: minus 1 day, 1 hour, 0 minutes, 1 second and 1
microsecond; the zero minutes carry no sign. -/
theorem components_odd_symmetric_witness :
    (isInt64 (-90001000001000) ∧ (-90001000001000 : Int) ≠ -9223372036854775808 ∧
      (-90001000001000 : Int) < 0 ∧
      ((-90001000001000 : Int).natAbs < 14749199999999999
        ∨ (-90001000001000 : Int) % 1000 = 0)) ∧
    ((days (- -90001000001000) = -days (-90001000001000) ∧
      hours (- -90001000001000) = -hours (-90001000001000) ∧
      minutes (- -90001000001000) = -minutes (-90001000001000) ∧
      seconds (- -90001000001000) = -seconds (-90001000001000) ∧
      milliPlusOne (- -90001000001000) = -milliPlusOne (-90001000001000)) ∧
    days (-90001000001000) ≤ 0 ∧ hours (-90001000001000) ≤ 0 ∧
      minutes (-90001000001000) ≤ 0 ∧ seconds (-90001000001000) ≤ 0 ∧
      milliPlusOne (-90001000001000) ≤ 0) ∧
    durationString (-90001000001000) = "-1.-1:00:-1.-001" ∧
    durationString 90001000001000 = "01.01:00:01.0001" :=
  ⟨by decide,
   ⟨(components_odd_symmetric (-90001000001000) (by decide) (by decide)).1,
    ((components_odd_symmetric (-90001000001000) (by decide) (by decide)).2.2 (by decide)
      (by decide)).1⟩,
   by
     set_option maxRecDepth 4000 in
     decide,
   by
     set_option maxRecDepth 4000 in
     decide⟩

/-- Counterexample to C16: 14749199999999001 and 14749199999999999 nanoseconds
have the same count of whole microseconds and different Duration strings,
170.16:59:59.999999 and 170.17:-1:59.999999. -/
theorem duration_string_unambiguous_counterexample :
    ((0 : Int) ≤ 14749199999999001 ∧ isInt64 14749199999999001 ∧
      (0 : Int) ≤ 14749199999999999 ∧ isInt64 14749199999999999) ∧
    Int.tdiv 14749199999999001 1000 = Int.tdiv 14749199999999999 1000 ∧
    durationString 14749199999999001 = "170.16:59:59.999999" ∧
    durationString 14749199999999999 = "170.17:-1:59.999999" ∧
    ¬ durationString 14749199999999001 = durationString 14749199999999999 := by
  decide

/-- C16, amended: the Duration string is unambiguous at microsecond resolution
for the non-negative durations below 14749199999999999 nanoseconds (4097 hours
less one nanosecond) or of a whole number of microseconds: for any two of them
`NewRequestTelemetry` produces the same Duration string if and only if the two
have the same count of whole microseconds, nanoseconds / 1000. -/
theorem duration_string_unambiguous (d1 d2 : Int) (h1 : 0 ≤ d1) (g1 : isInt64 d1)
    (x1 : d1.natAbs < 14749199999999999 ∨ d1 % 1000 = 0)
    (h2 : 0 ≤ d2) (g2 : isInt64 d2)
    (x2 : d2.natAbs < 14749199999999999 ∨ d2 % 1000 = 0)
    (name1 name2 : String) (t1 t2 : Time)
    (responseCode1 responseCode2 : String) (success1 success2 : Bool) (w1 w2 : World) :
    (NewRequestTelemetry name1 t1 d1 responseCode1 success1 w1).1.data.Duration
      = (NewRequestTelemetry name2 t2 d2 responseCode2 success2 w2).1.data.Duration
    ↔ Int.tdiv d1 1000 = Int.tdiv d2 1000 := by
  have e1 := floatExact_of_domain d1 g1 x1
  have e2 := floatExact_of_domain d2 g2 x2
  rw [NewRequestTelemetry_Duration, NewRequestTelemetry_Duration,
    tdiv_of_nonneg d1 1000 h1 (by decide), tdiv_of_nonneg d2 1000 h2 (by decide)]
  constructor
  · intro hs
    unfold durationString at hs
    obtain ⟨p1, p2, p3, p4, p5⟩ := components_nonneg d1 h1 g1 e1
    obtain ⟨q1, q2, q3, q4, q5⟩ := components_nonneg d2 h2 g2 e2
    obtain ⟨f1, f2, f3, f4, f5⟩ := Sprintf_inj _ _ _ _ _ _ _ _ _ _ p1 p2 p3 p4 q1 q2 q3 q4
      p5 q5 hs
    rw [micro_of_components d1 h1 g1 e1, micro_of_components d2 h2 g2 e2, f1, f2, f3, f4, f5]
  · intro hu
    obtain ⟨c1, c2, c3, c4, c5⟩ := components_of_micro d1 h1 g1 e1
    obtain ⟨b1, b2, b3, b4, b5⟩ := components_of_micro d2 h2 g2 e2
    unfold durationString
    rw [c1, c2, c3, c4, c5, b1, b2, b3, b4, b5, hu]

/-- Witness of C16, amended: 1500 and 1999 nanoseconds, one whole microsecond
each, give the same string, 00.00:00:00.0001. -/
theorem duration_string_unambiguous_witness :
    ((0 : Int) ≤ 1500 ∧ isInt64 1500 ∧
      ((1500 : Int).natAbs < 14749199999999999 ∨ (1500 : Int) % 1000 = 0) ∧
      (0 : Int) ≤ 1999 ∧ isInt64 1999 ∧
      ((1999 : Int).natAbs < 14749199999999999 ∨ (1999 : Int) % 1000 = 0)) ∧
    ((NewRequestTelemetry "a" Time.zero 1500 "200" true
        ⟨fun _ => Time.zero, 0, fun _ => "", 0, 0, fun _ _ => ""⟩).1.data.Duration
      = (NewRequestTelemetry "b" Time.zero 1999 "500" false
        ⟨fun _ => Time.zero, 0, fun _ => "", 0, 0, fun _ _ => ""⟩).1.data.Duration
    ↔ Int.tdiv 1500 1000 = Int.tdiv 1999 1000) ∧
    durationString 1500 = "00.00:00:00.0001" ∧ durationString 1999 = "00.00:00:00.0001" ∧
    durationString 2000 = "00.00:00:00.0002" :=
  ⟨by decide,
   duration_string_unambiguous 1500 1999 (by decide) (by decide) (by decide) (by decide)
     (by decide) (by decide)
     "a" "b" Time.zero Time.zero "200" "500" true false
     ⟨fun _ => Time.zero, 0, fun _ => "", 0, 0, fun _ _ => ""⟩
     ⟨fun _ => Time.zero, 0, fun _ => "", 0, 0, fun _ _ => ""⟩,
   by
     set_option maxRecDepth 4000 in
     decide⟩

end appinsights
